import Mathlib

/-!
Verification development for the `harness` coding-agent driver.

This file gives a shallow embedding of the core of the repository:
the unified event model (`src/event.rs`), the normalization pipeline
(`src/normalize.rs`), the error taxonomy (`src/error.rs`), the working
directory validation and child-process guard of the supervisor
(`src/process.rs`), the stderr collector (`src/process.rs`), the task
configuration (`src/config.rs`) and the Cursor adapter's tool-call
extraction (`src/agents/cursor.rs`).

Modelling conventions:
* Rust `u64` fields are modelled as `Nat` (the claims under study do not
  hinge on wrap-around arithmetic).
* Rust `f64` cost fields are modelled as `Rat`; the claims under study
  concern which values are combined, not floating-point rounding.
* `serde_json::Value` is modelled by the inductive `Json` below, with
  objects as association lists.
* Fallible Rust functions returning `Result<T, Error>` are modelled with
  `Except Error T`.
-/

namespace Harness

/-- Token usage and cost data (`UsageData` in `src/event.rs`).
All fields optional; absent means unknown, not zero. -/
structure UsageData where
  input_tokens : Option Nat
  output_tokens : Option Nat
  cache_read_tokens : Option Nat
  cache_creation_tokens : Option Nat
  cost_usd : Option Rat
deriving DecidableEq, Repr

/-- The `Default` impl for `UsageData`: every field `None`. -/
instance : Inhabited UsageData := ⟨⟨none, none, none, none, none⟩⟩

/-- Message roles (`Role` in `src/event.rs`). -/
inductive Role where
  | Assistant
  | User
  | System
deriving DecidableEq, Repr

/-- Model of `serde_json::Value`: objects are association lists of
key/value pairs in iteration order. -/
inductive Json where
  | null
  | bool (b : Bool)
  | num (q : Rat)
  | str (s : String)
  | arr (elems : List Json)
  | obj (fields : List (String × Json))
deriving Repr

/-- `SessionStartEvent` in `src/event.rs`. -/
structure SessionStartEvent where
  session_id : String
  agent : String
  model : Option String
  cwd : Option String
  timestamp_ms : Nat
deriving Repr

/-- `TextDeltaEvent` in `src/event.rs`. -/
structure TextDeltaEvent where
  text : String
  timestamp_ms : Nat
deriving Repr

/-- `MessageEvent` in `src/event.rs`. -/
structure MessageEvent where
  role : Role
  text : String
  usage : Option UsageData
  timestamp_ms : Nat
deriving Repr

/-- `ToolStartEvent` in `src/event.rs`. -/
structure ToolStartEvent where
  call_id : String
  tool_name : String
  input : Option Json
  timestamp_ms : Nat
deriving Repr

/-- `ToolEndEvent` in `src/event.rs`. -/
structure ToolEndEvent where
  call_id : String
  tool_name : String
  success : Bool
  output : Option String
  usage : Option UsageData
  timestamp_ms : Nat
deriving Repr

/-- `UsageDeltaEvent` in `src/event.rs`. -/
structure UsageDeltaEvent where
  usage : UsageData
  timestamp_ms : Nat
deriving Repr

/-- `ResultEvent` in `src/event.rs`. -/
structure ResultEvent where
  success : Bool
  text : String
  session_id : String
  duration_ms : Option Nat
  total_cost_usd : Option Rat
  usage : Option UsageData
  timestamp_ms : Nat
deriving Repr

/-- `ErrorEvent` in `src/event.rs`. -/
structure ErrorEvent where
  message : String
  code : Option String
  timestamp_ms : Nat
deriving Repr

/-- The unified event stream type (`Event` in `src/event.rs`). -/
inductive Event where
  | SessionStart (e : SessionStartEvent)
  | TextDelta (e : TextDeltaEvent)
  | Message (e : MessageEvent)
  | ToolStart (e : ToolStartEvent)
  | ToolEnd (e : ToolEndEvent)
  | UsageDelta (e : UsageDeltaEvent)
  | Result (e : ResultEvent)
  | Error (e : ErrorEvent)
deriving Repr

-- ───────────────────────── Normalizer (`src/normalize.rs`) ─────────────────────────

/-- `NormalizeConfig` in `src/normalize.rs`: fallback values from the task config. -/
structure NormalizeConfig where
  cwd : Option String
  model : Option String
  prompt : Option String

/-- `NormalizeState` in `src/normalize.rs`. -/
structure NormalizeState where
  session_id : String
  start_timestamp_ms : Nat
  last_assistant_text : String
  accumulated_usage : UsageData
  has_usage : Bool
  cwd : Option String
  model : Option String
  seen_user_message : Bool
  seen_usage_delta : Bool
  prompt : Option String

/-- The initial state built by `normalize_stream` in `src/normalize.rs`. -/
def initState (config : NormalizeConfig) : NormalizeState :=
  { session_id := ""
    start_timestamp_ms := 0
    last_assistant_text := ""
    accumulated_usage := default
    has_usage := false
    cwd := config.cwd
    model := config.model
    seen_user_message := false
    seen_usage_delta := false
    prompt := config.prompt }

/-- Componentwise addition of one observed delta into the accumulator, as in
`NormalizeState::accumulate_usage`: each present field is added onto the
accumulator field (`get_or_insert(0) += v`); absent fields leave the
accumulator field untouched. -/
def addUsage (acc u : UsageData) : UsageData :=
  { input_tokens :=
      match u.input_tokens with
      | some v => some (acc.input_tokens.getD 0 + v)
      | none => acc.input_tokens
    output_tokens :=
      match u.output_tokens with
      | some v => some (acc.output_tokens.getD 0 + v)
      | none => acc.output_tokens
    cache_read_tokens :=
      match u.cache_read_tokens with
      | some v => some (acc.cache_read_tokens.getD 0 + v)
      | none => acc.cache_read_tokens
    cache_creation_tokens :=
      match u.cache_creation_tokens with
      | some v => some (acc.cache_creation_tokens.getD 0 + v)
      | none => acc.cache_creation_tokens
    cost_usd :=
      match u.cost_usd with
      | some v => some (acc.cost_usd.getD 0 + v)
      | none => acc.cost_usd }

/-- `NormalizeState::accumulate_usage`: sets `has_usage` and folds the delta
into `accumulated_usage`. -/
def NormalizeState.accumulate (s : NormalizeState) (u : UsageData) : NormalizeState :=
  { s with has_usage := true, accumulated_usage := addUsage s.accumulated_usage u }

/-- `NormalizeState::make_user_message`: a synthetic user message carrying the
stored prompt (`unwrap_or_default`). -/
def NormalizeState.makeUserMessage (s : NormalizeState) (timestamp_ms : Nat) : Event :=
  Event.Message
    { role := Role.User
      text := s.prompt.getD ""
      usage := none
      timestamp_ms := timestamp_ms }

/-- `NormalizeState::maybe_prepend_user_message`: prepend the synthetic user
message to the given event when a prompt is stored and no user message has
been emitted yet. Returns the updated state and the events to emit. -/
def NormalizeState.maybePrependUserMessage (s : NormalizeState) (event : Event)
    (timestamp_ms : Nat) : NormalizeState × List Event :=
  if !s.seen_user_message && s.prompt.isSome then
    ({ s with seen_user_message := true }, [s.makeUserMessage timestamp_ms, event])
  else
    (s, [event])

/-- Step (a) of the `Event::Result` arm of `enrich`: fill `text` from the
last assistant message if empty. -/
def fillText (s : NormalizeState) (e : ResultEvent) : ResultEvent :=
  if e.text = "" && !(s.last_assistant_text = "") then
    { e with text := s.last_assistant_text } else e

/-- Step (b): fill `session_id` if empty. -/
def fillSid (s : NormalizeState) (e : ResultEvent) : ResultEvent :=
  if e.session_id = "" && !(s.session_id = "") then
    { e with session_id := s.session_id } else e

/-- Step (c): compute `duration_ms` from the timestamps if not set
(saturating subtraction). -/
def fillDuration (s : NormalizeState) (e : ResultEvent) : ResultEvent :=
  if e.duration_ms = none && decide (0 < s.start_timestamp_ms)
      && decide (0 < e.timestamp_ms) then
    { e with duration_ms := some (e.timestamp_ms - s.start_timestamp_ms) } else e

/-- Step (d): fill `usage` from the accumulated deltas if not set. -/
def fillUsage (s : NormalizeState) (e : ResultEvent) : ResultEvent :=
  if e.usage = none && s.has_usage then
    { e with usage := some s.accumulated_usage } else e

/-- Step (e): fill `total_cost_usd` from the usage cost if not set. -/
def fillCost (e : ResultEvent) : ResultEvent :=
  if e.total_cost_usd = none then
    match e.usage with
    | some u =>
      match u.cost_usd with
      | some cost => { e with total_cost_usd := some cost }
      | none => e
    | none => e
  else e

/-- The field-filling part of the `Event::Result` arm of
`NormalizeState::enrich`, applied in source order: text, session id,
duration, usage, total cost. -/
def fillResult (s : NormalizeState) (e : ResultEvent) : ResultEvent :=
  fillCost (fillUsage s (fillDuration s (fillSid s (fillText s e))))

/-- `NormalizeState::enrich`: one step of the stateful normalizer. Returns the
updated state and the list of events emitted for this input event. The match
arms mirror the Rust `match` including its guards: a user message is emitted
as-is, a non-empty assistant message updates `last_assistant_text`, and every
`Message` not matched by those two guards (system role, or assistant with
empty text) falls through to the catch-all arm, whose timestamp extraction
yields `0` for `Message` events. -/
def NormalizeState.enrich (s : NormalizeState) (event : Event) : NormalizeState × List Event :=
  match event with
  | Event.SessionStart e =>
    let s := { s with session_id := e.session_id, start_timestamp_ms := e.timestamp_ms }
    let e := if e.model = none then { e with model := s.model } else e
    let e := if e.cwd = none then { e with cwd := s.cwd } else e
    (s, [Event.SessionStart e])
  | Event.Message e =>
    if e.role = Role.User then
      ({ s with seen_user_message := true }, [Event.Message e])
    else if e.role = Role.Assistant && !(e.text = "") then
      let s := { s with last_assistant_text := e.text }
      s.maybePrependUserMessage (Event.Message e) e.timestamp_ms
    else
      -- catch-all arm: `Message` is not in the timestamp match list, so ts = 0
      s.maybePrependUserMessage (Event.Message e) 0
  | Event.UsageDelta e =>
    let s := { s with seen_usage_delta := true }
    let s := s.accumulate e.usage
    s.maybePrependUserMessage (Event.UsageDelta e) e.timestamp_ms
  | Event.Result e0 =>
    let e := fillResult s e0
    let ts := e.timestamp_ms
    let (s', events) := s.maybePrependUserMessage (Event.Result e) ts
    if !s'.seen_usage_delta then
      match events.getLast? with
      | some (Event.Result r) =>
        match r.usage with
        | some u =>
          (s', events.dropLast ++ [Event.UsageDelta { usage := u, timestamp_ms := ts },
            Event.Result r])
        | none => (s', events)
      | _ => (s', events)
    else (s', events)
  | Event.TextDelta e => s.maybePrependUserMessage (Event.TextDelta e) e.timestamp_ms
  | Event.ToolStart e => s.maybePrependUserMessage (Event.ToolStart e) e.timestamp_ms
  | Event.ToolEnd e => s.maybePrependUserMessage (Event.ToolEnd e) e.timestamp_ms
  | Event.Error e => s.maybePrependUserMessage (Event.Error e) e.timestamp_ms

/-- `normalize_stream`, restricted to the successful items of the stream:
the stateful scan over the input events, concatenating the per-event
outputs (`scan` + `flatten` in `src/normalize.rs`). -/
def runNorm (s : NormalizeState) : List Event → List Event
  | [] => []
  | e :: rest =>
    let (s', out) := s.enrich e
    out ++ runNorm s' rest

/-- The state after the normalizer has consumed a list of events. -/
def runState (s : NormalizeState) : List Event → NormalizeState
  | [] => s
  | e :: rest => runState (s.enrich e).1 rest

/-- Whole-pipeline normalization of an event list from the configured
initial state. -/
def normalizeList (config : NormalizeConfig) (events : List Event) : List Event :=
  runNorm (initState config) events

-- ───────────────────────── Error taxonomy (`src/error.rs`) ─────────────────────────

/-- The closed error taxonomy (`Error` in `src/error.rs`). Payloads that are
irrelevant to the claims (`io::Error` sources, JSON errors) are carried as
message strings. -/
inductive Err where
  | BinaryNotFound (agent binary : String)
  | SpawnFailed (msg : String)
  | ProcessFailed (code : Int) (stderr : String)
  | ParseError (msg : String)
  | Timeout (secs : Nat)
  | InvalidWorkDir (path : String)
  | Io (msg : String)
  | Json (msg : String)
  | ModelsParse (msg : String)
  | ModelsFetch (msg : String)
  | Other (msg : String)
deriving DecidableEq, Repr

/-- `Error::code` in `src/error.rs`: the stable error code string. -/
def Err.code : Err → String
  | Err.BinaryNotFound _ _ => "E001"
  | Err.SpawnFailed _ => "E002"
  | Err.ProcessFailed _ _ => "E003"
  | Err.ParseError _ => "E004"
  | Err.Timeout _ => "E005"
  | Err.InvalidWorkDir _ => "E006"
  | Err.Io _ => "E007"
  | Err.Json _ => "E008"
  | Err.ModelsParse _ => "E010"
  | Err.ModelsFetch _ => "E011"
  | Err.Other _ => "E999"

-- ─────────────── Working-directory validation (`src/process.rs`) ───────────────

/-- The two filesystem facts `validate_cwd` consults about the requested
working directory: whether the path exists, and whether it is a directory. -/
structure CwdView where
  path : String
  pathExists : Bool
  isDirectory : Bool

/-- `validate_cwd` in `src/process.rs`: a missing path yields
`Error::InvalidWorkDir`; a path that exists but is not a directory yields
`Error::Other` with a formatted message. -/
def validateCwd (cwd : CwdView) : Except Err Unit :=
  if !cwd.pathExists then
    Except.error (Err.InvalidWorkDir cwd.path)
  else if !cwd.isDirectory then
    Except.error (Err.Other ("working directory is not a directory: " ++ cwd.path))
  else
    Except.ok ()

/-- The front part of `spawn_and_stream` in `src/process.rs`, up to the
spawn: the working directory is validated before the child is spawned, so a
validation failure is surfaced to the caller and no spawn is attempted.
`spawnOk` abstracts the OS-level outcome of `cmd.spawn()`. -/
def spawnPipeline (cwd : CwdView) (spawnOk : Bool) : Except Err Unit :=
  match validateCwd cwd with
  | Except.error e => Except.error e
  | Except.ok _ =>
    if spawnOk then Except.ok () else Except.error (Err.SpawnFailed "os error")

-- ─────────────── Child-process guard (`src/process.rs`, `ChildGuard`) ───────────────

/-- Signals the Unix `ChildGuard::kill` can deliver to the child's process
group. -/
inductive Signal where
  | SIGTERM
  | SIGKILL
deriving DecidableEq, Repr

/-- State of one `ChildGuard`: the `killed: AtomicBool` flag. -/
structure GuardState where
  killed : Bool
deriving DecidableEq, Repr

/-- A fresh guard (`ChildGuard::new`): `killed` starts false. -/
def GuardState.new : GuardState := ⟨false⟩

/-- One call to `ChildGuard::kill` (Unix path, `src/process.rs` lines 38-62).
`termDelivered` is the environment's answer to the `killpg(pgid, SIGTERM)`
call: `true` when delivery succeeds, `false` when the process group is
already gone (`killpg` returns an error). Returns the new guard state and
the list of signals sent to the process group by this call, in order:
if the atomic swap shows a previous call already ran, nothing is sent;
otherwise SIGTERM is sent, and only when its delivery succeeded is the
delayed SIGKILL issued (on SIGTERM failure the function returns early). -/
def GuardState.killCall (g : GuardState) (termDelivered : Bool) :
    GuardState × List Signal :=
  if g.killed then
    (g, [])
  else
    let g := { g with killed := true }
    if termDelivered then
      (g, [Signal.SIGTERM, Signal.SIGKILL])
    else
      (g, [Signal.SIGTERM])

/-- The signal trace of a sequence of `kill` calls on one guard:
`oracles` gives, for each call, whether a SIGTERM delivery attempted by that
call would succeed. -/
def killTrace (g : GuardState) : List Bool → List Signal
  | [] => []
  | o :: rest =>
    let (g', sigs) := g.killCall o
    sigs ++ killTrace g' rest

-- ─────────────── Stderr collector (`src/process.rs`, stderr task) ───────────────

/-- `MAX_STDERR_BYTES` in `src/process.rs`: 64 KiB. -/
def MAX_STDERR_BYTES : Nat := 64 * 1024

/-- The stderr collection loop of `spawn_and_stream` (`src/process.rs`
lines 177-197), modelled at the byte level: `lines` are the byte contents of
successive stderr lines (newlines excluded). Starting from buffer `buf`,
each iteration stops when the buffer already reached the cap, otherwise
joins with a newline byte, and truncates the incoming line to the remaining
capacity (stopping afterwards) when it would overflow. -/
def collectStderrAux (buf : List Nat) : List (List Nat) → List Nat
  | [] => buf
  | line :: rest =>
    if MAX_STDERR_BYTES ≤ buf.length then
      buf
    else
      let buf2 := if buf.isEmpty then buf else buf ++ [10]
      let remaining := MAX_STDERR_BYTES - buf2.length
      if remaining < line.length then
        buf2 ++ line.take remaining
      else
        collectStderrAux (buf2 ++ line) rest

/-- The full stderr collector: starts from the empty buffer. -/
def collectStderr (lines : List (List Nat)) : List Nat :=
  collectStderrAux [] lines

/-- The terminal error appended by `spawn_and_stream` when the child exits
non-zero (`src/process.rs` lines 253-274): `ProcessFailed` carrying the exit
code and the collected (capped) stderr text. The byte buffer is carried
abstractly here via its length-relevant content. -/
def processFailedOfExit (code : Int) (stderrLines : List (List Nat)) : Err :=
  Err.ProcessFailed code (String.mk ((collectStderr stderrLines).map Char.ofNat))

-- ───────────────────────── Task configuration (`src/config.rs`) ─────────────────────────

/-- `AgentKind` in `src/config.rs`. -/
inductive AgentKind where
  | Claude
  | OpenCode
  | Codex
  | Cursor
deriving DecidableEq, Repr

/-- `PermissionMode` in `src/config.rs`: full access (the `#[default]`
variant) or read-only. -/
inductive PermissionMode where
  | FullAccess
  | ReadOnly
deriving DecidableEq, Repr

/-- The `#[default]` attribute on `PermissionMode::FullAccess`. -/
instance : Inhabited PermissionMode := ⟨PermissionMode.FullAccess⟩

/-- `OutputFormat` in `src/config.rs` (`StreamJson` is the `#[default]`). -/
inductive OutputFormat where
  | Text
  | Json
  | StreamJson
  | Markdown
deriving DecidableEq, Repr

instance : Inhabited OutputFormat := ⟨OutputFormat.StreamJson⟩

/-- `TaskConfig` in `src/config.rs`. `PathBuf` fields are modelled as
strings, the env map as an association list. -/
structure TaskConfig where
  prompt : String
  agent : AgentKind
  cwd : Option String
  model : Option String
  permission_mode : PermissionMode
  output_format : OutputFormat
  max_turns : Option Nat
  max_budget_usd : Option Rat
  timeout_secs : Option Nat
  system_prompt : Option String
  append_system_prompt : Option String
  binary_path : Option String
  env : List (String × String)
  extra_args : List String
deriving Repr

/-- `TaskConfig::new` in `src/config.rs`. -/
def TaskConfig.new (prompt : String) (agent : AgentKind) : TaskConfig :=
  { prompt := prompt
    agent := agent
    cwd := none
    model := none
    permission_mode := PermissionMode.FullAccess
    output_format := OutputFormat.StreamJson
    max_turns := none
    max_budget_usd := none
    timeout_secs := none
    system_prompt := none
    append_system_prompt := none
    binary_path := none
    env := []
    extra_args := [] }

-- ───────────────────────── Cursor adapter (`src/agents/cursor.rs`) ─────────────────────────

/-- `serde_json::Value::get(key)`: field lookup on objects, `None` on every
other value kind. -/
def Json.get (j : Json) (key : String) : Option Json :=
  match j with
  | Json.obj fields => (fields.find? (fun kv => kv.1 == key)).map (fun kv => kv.2)
  | _ => none

/-- `Value::as_str`. -/
def Json.asStr : Json → Option String
  | Json.str s => some s
  | _ => none

/-- `Value::as_bool`. -/
def Json.asBool : Json → Option Bool
  | Json.bool b => some b
  | _ => none

/-- `Value::as_u64`: defined exactly on non-negative integral numbers. -/
def Json.asNat : Json → Option Nat
  | Json.num q => if q.den = 1 && decide (0 ≤ q.num) then some q.num.toNat else none
  | _ => none

/-- `value.get(key).and_then(|v| v.as_str())`, with a default of `""`,
as used throughout the Cursor parser. -/
def Json.getStrD (j : Json) (key : String) : String :=
  ((j.get key).bind Json.asStr).getD ""

/-- Rust `str::ends_with` for the ASCII patterns used by the Cursor parser,
at the character-list level. -/
def strEndsWith (s pat : String) : Bool :=
  pat.data.isSuffixOf s.data

/-- Rust `str::trim_end_matches`, which removes **all** trailing occurrences
of the pattern, written with an explicit fuel (the string length bounds the
number of removals). -/
def trimEndList (pat : List Char) : Nat → List Char → List Char
  | 0, l => l
  | fuel + 1, l =>
    if !pat.isEmpty && pat.isSuffixOf l then
      trimEndList pat fuel (l.take (l.length - pat.length))
    else l

/-- `str::trim_end_matches` on strings. -/
def trimEndMatches (s pat : String) : String :=
  String.mk (trimEndList pat.data s.data.length s.data)

/-- `extract_tool_info` in `src/agents/cursor.rs`: given the optional
`tool_call` object, find the first key whose name ends with `ToolCall` or
`_tool_call`; the tool name is that key with both suffixes trimmed, and the
payload is the key's value's `args` field, falling back to its `result`
field — the same extraction for both the `started` and `completed`
subtypes. Otherwise fall back to a `name`/`arguments` pair, and finally to
`("unknown", None)`. -/
def extractToolInfo (tool_call : Option Json) : String × Option Json :=
  match tool_call with
  | none => ("unknown", none)
  | some tc =>
    match tc with
    | Json.obj fields =>
      match fields.find? (fun kv =>
          strEndsWith kv.1 "ToolCall" || strEndsWith kv.1 "_tool_call") with
      | some kv =>
        let name := trimEndMatches (trimEndMatches kv.1 "ToolCall") "_tool_call"
        let data := (kv.2.get "args").orElse (fun _ => kv.2.get "result")
        (name, data)
      | none =>
        match (Json.obj fields).get "name" with
        | some nv =>
          match nv.asStr with
          | some name => (name, (Json.obj fields).get "arguments")
          | none => ("unknown", none)
        | none => ("unknown", none)
    | _ => ("unknown", none)

/-- String escaping of `serde_json`'s compact printer, restricted to the
escapes relevant here (quote, backslash, and common control characters). -/
def escapeJsonChar (c : Char) : String :=
  if c = '"' then "\\\""
  else if c = '\\' then "\\\\"
  else if c = '\n' then "\\n"
  else if c = '\r' then "\\r"
  else if c = '\t' then "\\t"
  else String.mk [c]

/-- Rendering of a number by the compact printer; integers print without a
fractional part (non-integral rationals stand in for the f64 values of the
wire format). -/
def renderNum (q : Rat) : String :=
  if q.den = 1 then toString q.num else toString q.num ++ "/" ++ toString q.den

mutual

/-- `serde_json::Value::to_string` (compact form), as invoked on the tool
payload by the `completed` arm of the Cursor parser. -/
def Json.render : Json → String
  | Json.null => "null"
  | Json.bool true => "true"
  | Json.bool false => "false"
  | Json.num q => renderNum q
  | Json.str s => "\"" ++ String.join (s.data.map escapeJsonChar) ++ "\""
  | Json.arr xs => "[" ++ renderElems xs ++ "]"
  | Json.obj fs => "\x7b" ++ renderFields fs ++ "\x7d"

/-- Comma-joined rendering of array elements. -/
def renderElems : List Json → String
  | [] => ""
  | [x] => Json.render x
  | x :: y :: rest => Json.render x ++ "," ++ renderElems (y :: rest)

/-- Comma-joined rendering of object fields. -/
def renderFields : List (String × Json) → String
  | [] => ""
  | [kv] => "\"" ++ String.join (kv.1.data.map escapeJsonChar) ++ "\":" ++ Json.render kv.2
  | kv :: l :: rest =>
    "\"" ++ String.join (kv.1.data.map escapeJsonChar) ++ "\":" ++ Json.render kv.2
      ++ "," ++ renderFields (l :: rest)

end

/-- `extract_message_text` in `src/agents/cursor.rs`: concatenate the `text`
fields of the `type = "text"` items of `/message/content`. -/
def extractMessageText (value : Json) : String :=
  match ((value.get "message").bind (fun m => m.get "content")) with
  | some (Json.arr items) =>
    String.join (items.filterMap (fun item =>
      match (item.get "type").bind Json.asStr with
      | some t => if t = "text" then (item.get "text").bind Json.asStr else none
      | none => none))
  | _ => ""

/-- `parse_cursor_line` in `src/agents/cursor.rs`, after the serde parse has
succeeded: dispatch on the `type` field of the parsed JSON value. Every
match arm of the source that yields events yields only `Ok` events, so the
result is a plain event list. -/
def parseCursorValue (value : Json) : List Event :=
  match (value.get "type").bind Json.asStr with
  | none => []
  | some eventType =>
    if eventType = "system" then
      let subtype := value.getStrD "subtype"
      if subtype = "init" then
        [Event.SessionStart
          { session_id := value.getStrD "session_id"
            agent := "cursor"
            model := (value.get "model").bind Json.asStr
            cwd := (value.get "cwd").bind Json.asStr
            timestamp_ms := 0 }]
      else []
    else if eventType = "assistant" then
      let text := extractMessageText value
      if text = "" then []
      else [Event.Message { role := Role.Assistant, text := text, usage := none, timestamp_ms := 0 }]
    else if eventType = "user" then
      let text := extractMessageText value
      if text = "" then []
      else [Event.Message { role := Role.User, text := text, usage := none, timestamp_ms := 0 }]
    else if eventType = "tool_call" then
      let subtype := value.getStrD "subtype"
      let call_id := value.getStrD "call_id"
      let info := extractToolInfo (value.get "tool_call")
      if subtype = "started" then
        [Event.ToolStart
          { call_id := call_id, tool_name := info.1, input := info.2, timestamp_ms := 0 }]
      else if subtype = "completed" then
        [Event.ToolEnd
          { call_id := call_id
            tool_name := info.1
            success := true
            output := info.2.map Json.render
            usage := none
            timestamp_ms := 0 }]
      else []
    else if eventType = "result" then
      let subtype := (((value.get "subtype").bind Json.asStr)).getD "success"
      let is_error := (((value.get "is_error").bind Json.asBool)).getD false
      let success := subtype = "success" && !is_error
      [Event.Result
        { success := success
          text := value.getStrD "result"
          session_id := value.getStrD "session_id"
          duration_ms := (value.get "duration_ms").bind Json.asNat
          total_cost_usd := none
          usage := none
          timestamp_ms := 0 }]
    else []

-- ───────────────────────── Derived observations used by the claims ─────────────────────────

/-- Whether an event is a `SessionStart`. -/
def isSessionStart : Event → Bool
  | Event.SessionStart _ => true
  | _ => false

/-- Whether an event is a `Message` with role `User`. -/
def isUserMessage : Event → Bool
  | Event.Message m => m.role = Role.User
  | _ => false

/-- Whether an event is a `Result`. -/
def isResult : Event → Bool
  | Event.Result _ => true
  | _ => false

/-- The timestamp `enrich` hands to `maybe_prepend_user_message` when the
given event is the one being prefixed: the event's own timestamp for
non-empty assistant messages, usage deltas, results (whose timestamp is
unchanged by field filling), text deltas, tool events and errors; `0` for
the `Message` shapes that fall into the catch-all arm. -/
def triggerTs : Event → Nat
  | Event.SessionStart _ => 0
  | Event.Message m => if m.role = Role.Assistant && !(m.text = "") then m.timestamp_ms else 0
  | Event.UsageDelta e => e.timestamp_ms
  | Event.Result e => e.timestamp_ms
  | Event.TextDelta e => e.timestamp_ms
  | Event.ToolStart e => e.timestamp_ms
  | Event.ToolEnd e => e.timestamp_ms
  | Event.Error e => e.timestamp_ms

/-- The usage payloads of the `UsageDelta` events of a stream, in order. -/
def usageDeltasOf (events : List Event) : List UsageData :=
  events.filterMap fun e =>
    match e with
    | Event.UsageDelta d => some d.usage
    | _ => none

/-- The `usage` fields of the `Result` events of a stream, in order. -/
def resultUsages (events : List Event) : List (Option UsageData) :=
  events.filterMap fun e =>
    match e with
    | Event.Result r => some r.usage
    | _ => none

/-- One optional-field accumulation step, as performed per component by
`accumulate_usage`: an absent delta component leaves the accumulator alone,
a present one is added onto the accumulator's value-or-zero. -/
def optAdd {M : Type} [AddCommMonoid M] (a u : Option M) : Option M :=
  match u with
  | some v => some (a.getD 0 + v)
  | none => a

/-- The specification-level componentwise sum of a list of optional
components: absent when every component is absent, otherwise the sum of the
present components. -/
def optSum {M : Type} [AddCommMonoid M] (xs : List (Option M)) : Option M :=
  if (xs.filterMap id).isEmpty then none else some (xs.filterMap id).sum

/-- The specification-level componentwise sum of observed usage deltas
(P7's "componentwise equals the sum of observed deltas"; `cost_usd` summed
as numbers). -/
def specSumUsage (ds : List UsageData) : UsageData :=
  { input_tokens := optSum (ds.map (fun d => d.input_tokens))
    output_tokens := optSum (ds.map (fun d => d.output_tokens))
    cache_read_tokens := optSum (ds.map (fun d => d.cache_read_tokens))
    cache_creation_tokens := optSum (ds.map (fun d => d.cache_creation_tokens))
    cost_usd := optSum (ds.map (fun d => d.cost_usd)) }

/-- Two-pass correspondence of the normalizer states, restricted to the
fields that govern the emission (not the usage bookkeeping): the second
pass state `t` agrees with the first pass state `s` on the captured session
id, start timestamp, last assistant text, the user-message flag and the
three fallback values. -/
def InvCore (s t : NormalizeState) : Prop :=
  t.session_id = s.session_id ∧
  t.start_timestamp_ms = s.start_timestamp_ms ∧
  t.last_assistant_text = s.last_assistant_text ∧
  t.seen_user_message = s.seen_user_message ∧
  t.cwd = s.cwd ∧
  t.model = s.model ∧
  t.prompt = s.prompt

/-- Two-pass correspondence of the usage bookkeeping fields. -/
def InvUsage (s t : NormalizeState) : Prop :=
  t.accumulated_usage = s.accumulated_usage ∧
  t.has_usage = s.has_usage ∧
  t.seen_usage_delta = s.seen_usage_delta

-- ═════════════════════════ Theorems ═════════════════════════

-- ───────── Child-guard cancellation (claims C7, C10) ─────────

/-- After the first `kill` call the `killed` flag is set, and every further
call returns without sending signals. -/
lemma killTrace_killed (oracles : List Bool) : killTrace ⟨true⟩ oracles = [] := by
  induction oracles with
  | nil => rfl
  | cons o rest ih => simpa [killTrace, GuardState.killCall] using ih

/-- The signal trace of any number of `kill` calls on a fresh guard is the
trace of the first call alone. -/
lemma killTrace_eq_head (oracles : List Bool) :
    killTrace GuardState.new oracles =
      match oracles.head? with
      | none => []
      | some o => (GuardState.new.killCall o).2 := by
  cases oracles with
  | nil => rfl
  | cons o rest =>
    cases o <;>
      simp [killTrace, GuardState.killCall, GuardState.new, killTrace_killed]

/-- C7: cancellation is idempotent. For every number of calls to
`ChildGuard::kill` on one run (each with an arbitrary outcome of the SIGTERM
delivery), at most one SIGTERM and at most one SIGKILL are delivered to the
child's process group, and the whole signal trace is exactly the trace of
the first call: later calls issue no signals. -/
theorem childGuard_cancel_idempotent (oracles : List Bool) :
    (killTrace GuardState.new oracles).count Signal.SIGTERM ≤ 1 ∧
    (killTrace GuardState.new oracles).count Signal.SIGKILL ≤ 1 ∧
    killTrace GuardState.new oracles =
      (match oracles.head? with
       | none => []
       | some o => (GuardState.new.killCall o).2) := by
  refine ⟨?_, ?_, killTrace_eq_head oracles⟩ <;>
    rw [killTrace_eq_head oracles] <;>
    cases oracles with
    | nil => simp
    | cons o rest => cases o <;> simp [GuardState.killCall, GuardState.new]

/-- C10: in the child-guard kill step relation, SIGKILL is delivered to the
process group only when the SIGTERM delivery of the first call succeeded;
when SIGTERM delivery fails (process already gone) no SIGKILL is ever sent,
and when SIGKILL is sent it is preceded by the successful SIGTERM in the
same trace. -/
theorem sigkill_only_after_sigterm (oracles : List Bool)
    (h : Signal.SIGKILL ∈ killTrace GuardState.new oracles) :
    oracles.head? = some true ∧
    killTrace GuardState.new oracles = [Signal.SIGTERM, Signal.SIGKILL] := by
  rw [killTrace_eq_head oracles] at h ⊢
  cases oracles with
  | nil => simp at h
  | cons o rest =>
    cases o with
    | true => simp [GuardState.killCall, GuardState.new]
    | false => simp [GuardState.killCall, GuardState.new] at h

/-- Witness for `sigkill_only_after_sigterm` at the concrete oracle list
`[true]`. -/
theorem sigkill_only_after_sigterm_witness :
    Signal.SIGKILL ∈ killTrace GuardState.new [true] ∧
    ([true] : List Bool).head? = some true :=
  ⟨by decide, (sigkill_only_after_sigterm [true] (by decide)).1⟩

-- ───────── Stderr cap (claim C8) ─────────

/-- The collection loop never grows the buffer beyond the 64 KiB cap. -/
lemma collectStderrAux_length_le (lines : List (List Nat)) :
    ∀ buf : List Nat, buf.length ≤ MAX_STDERR_BYTES →
      (collectStderrAux buf lines).length ≤ MAX_STDERR_BYTES := by
  induction lines with
  | nil => intro buf h; simpa [collectStderrAux] using h
  | cons line rest ih =>
    intro buf h
    simp only [collectStderrAux]
    split
    · exact h
    · rename_i hlt
      by_cases hb : buf.isEmpty = true
      · rw [if_pos hb]
        split
        · rename_i hrem
          simp only [List.length_append, List.length_take]
          omega
        · rename_i hrem
          apply ih
          simp only [List.length_append]
          omega
      · rw [if_neg hb]
        split
        · rename_i hrem
          simp only [List.length_append, List.length_take, List.length_cons, List.length_nil]
          omega
        · rename_i hrem
          apply ih
          simp only [List.length_append, List.length_cons, List.length_nil] at *
          omega

/-- C8: for every child exit code and every possible stderr input (any list
of stderr lines), the collector totally computes a bounded buffer, and the
stderr text surfaced in the `ProcessFailed` error is at most
`MAX_STDERR_BYTES` = 65536 bytes long; bytes beyond the cap are dropped by
truncating the offending line to the remaining capacity. -/
theorem process_failed_stderr_capped (code : Int) (lines : List (List Nat)) :
    ∃ s : String, processFailedOfExit code lines = Err.ProcessFailed code s ∧
      s.length ≤ MAX_STDERR_BYTES ∧ MAX_STDERR_BYTES = 65536 := by
  refine ⟨_, rfl, ?_, rfl⟩
  have h := collectStderrAux_length_le lines [] (by simp [MAX_STDERR_BYTES])
  simpa [String.length, collectStderr] using h

-- ───────── Default permission mode (claim C9) ─────────

/-- C9: for every prompt and backend kind, `TaskConfig::new` builds a
request whose `permission_mode` is `FullAccess` (auto-approve everything),
which is also the `Default` of `PermissionMode`; a caller that never sets a
mode therefore runs with full access. -/
theorem taskConfig_new_full_access :
    (∀ (prompt : String) (agent : AgentKind),
      (TaskConfig.new prompt agent).permission_mode = PermissionMode.FullAccess) ∧
    (default : PermissionMode) = PermissionMode.FullAccess :=
  ⟨fun _ _ => rfl, rfl⟩

-- ───────── Working-directory validation (claim C4) ─────────

/-- C4 counterexample: a requested working directory that exists but is not
a directory does **not** fail with the `InvalidWorkDir` kind: `validate_cwd`
returns `Error::Other`, whose stable code is `E999`, not `E006`. -/
theorem validate_cwd_notdir_counterexample :
    validateCwd ⟨"p", true, false⟩ =
      Except.error (Err.Other ("working directory is not a directory: p")) ∧
    (Err.Other ("working directory is not a directory: p")).code = "E999" ∧
    ("E999" : String) ≠ "E006" :=
  ⟨rfl, rfl, by decide⟩

/-- C4 (amended): the supervisor validates the working directory before
spawning, so for either failure the caller sees the error and no spawn
outcome matters. A missing path fails with `InvalidWorkDir` (stable code
`E006`); a path that exists but is not a directory fails with `Other`
(stable code `E999`), not `InvalidWorkDir`. -/
theorem validate_cwd_error_kinds (cwd : CwdView) (spawnOk : Bool) :
    (cwd.pathExists = false →
      spawnPipeline cwd spawnOk = Except.error (Err.InvalidWorkDir cwd.path) ∧
      (Err.InvalidWorkDir cwd.path).code = "E006") ∧
    (cwd.pathExists = true → cwd.isDirectory = false →
      spawnPipeline cwd spawnOk =
        Except.error (Err.Other ("working directory is not a directory: " ++ cwd.path)) ∧
      (Err.Other ("working directory is not a directory: " ++ cwd.path)).code = "E999") := by
  constructor
  · intro h
    refine ⟨?_, rfl⟩
    simp [spawnPipeline, validateCwd, h]
  · intro h1 h2
    refine ⟨?_, rfl⟩
    simp [spawnPipeline, validateCwd, h1, h2]

/-- Witness for `validate_cwd_error_kinds` at two concrete directory views. -/
theorem validate_cwd_error_kinds_witness :
    spawnPipeline ⟨"q", false, false⟩ true = Except.error (Err.InvalidWorkDir "q") ∧
    spawnPipeline ⟨"p", true, false⟩ true =
      Except.error (Err.Other ("working directory is not a directory: p")) :=
  ⟨((validate_cwd_error_kinds ⟨"q", false, false⟩ true).1 rfl).1,
   ((validate_cwd_error_kinds ⟨"p", true, false⟩ true).2 rfl rfl).1⟩

-- ───────── Cursor tool-call extraction (claim C5) ─────────

/-- The `started` arm of the Cursor `tool_call` dispatch feeds the name and
payload computed by `extract_tool_info` into the `ToolStart` event. -/
lemma cursor_started_dispatch (tc : Json) (cid : String) :
    parseCursorValue (Json.obj [("type", Json.str "tool_call"),
        ("subtype", Json.str "started"), ("call_id", Json.str cid),
        ("tool_call", tc)]) =
      [Event.ToolStart
        { call_id := cid
          tool_name := (extractToolInfo (some tc)).1
          input := (extractToolInfo (some tc)).2
          timestamp_ms := 0 }] := rfl

/-- The `completed` arm of the Cursor `tool_call` dispatch feeds the same
`extract_tool_info` name and payload into the `ToolEnd` event, with the
payload stringified. -/
lemma cursor_completed_dispatch (tc : Json) (cid : String) :
    parseCursorValue (Json.obj [("type", Json.str "tool_call"),
        ("subtype", Json.str "completed"), ("call_id", Json.str cid),
        ("tool_call", tc)]) =
      [Event.ToolEnd
        { call_id := cid
          tool_name := (extractToolInfo (some tc)).1
          success := true
          output := ((extractToolInfo (some tc)).2).map Json.render
          usage := none
          timestamp_ms := 0 }] := rfl

/-- C5 counterexample: a `completed` tool_call whose matching key's value
carries both an `args` and a `result` field takes its payload from `.args`,
not from `.result` as the claim states for the completed subtype. -/
theorem cursor_completed_payload_counterexample :
    parseCursorValue (Json.obj [("type", Json.str "tool_call"),
        ("subtype", Json.str "completed"), ("call_id", Json.str "c1"),
        ("tool_call", Json.obj [("readToolCall",
          Json.obj [("args", Json.str "A"), ("result", Json.str "B")])])]) =
      [Event.ToolEnd
        { call_id := "c1", tool_name := "read", success := true,
          output := some (Json.render (Json.str "A")), usage := none, timestamp_ms := 0 }] ∧
    Json.render (Json.str "A") ≠ Json.render (Json.str "B") :=
  ⟨rfl, by decide⟩

/-- C5 (amended): for every Cursor `tool_call` line whose `tool_call` object
has a key with suffix `ToolCall` or `_tool_call`, the parser takes the
trimmed prefix of the first such key as the tool name, and takes the payload
from that key's value's `.args` field if present, falling back to its
`.result` field — the same extraction for both the `started` and the
`completed` subtype (`started` puts the payload in `ToolStart.input`,
`completed` stringifies it into `ToolEnd.output`). -/
theorem cursor_tool_payload_args_or_result
    (fields : List (String × Json)) (kv : String × Json) (cid : String)
    (hfind : fields.find? (fun p =>
        strEndsWith p.1 "ToolCall" || strEndsWith p.1 "_tool_call") = some kv) :
    extractToolInfo (some (Json.obj fields)) =
      (trimEndMatches (trimEndMatches kv.1 "ToolCall") "_tool_call",
        (kv.2.get "args").orElse (fun _ => kv.2.get "result")) ∧
    parseCursorValue (Json.obj [("type", Json.str "tool_call"),
        ("subtype", Json.str "started"), ("call_id", Json.str cid),
        ("tool_call", Json.obj fields)]) =
      [Event.ToolStart
        { call_id := cid
          tool_name := trimEndMatches (trimEndMatches kv.1 "ToolCall") "_tool_call"
          input := (kv.2.get "args").orElse (fun _ => kv.2.get "result")
          timestamp_ms := 0 }] ∧
    parseCursorValue (Json.obj [("type", Json.str "tool_call"),
        ("subtype", Json.str "completed"), ("call_id", Json.str cid),
        ("tool_call", Json.obj fields)]) =
      [Event.ToolEnd
        { call_id := cid
          tool_name := trimEndMatches (trimEndMatches kv.1 "ToolCall") "_tool_call"
          success := true
          output := ((kv.2.get "args").orElse (fun _ => kv.2.get "result")).map Json.render
          usage := none
          timestamp_ms := 0 }] := by
  have h1 : extractToolInfo (some (Json.obj fields)) =
      (trimEndMatches (trimEndMatches kv.1 "ToolCall") "_tool_call",
        (kv.2.get "args").orElse (fun _ => kv.2.get "result")) := by
    simp only [extractToolInfo, hfind]
  refine ⟨h1, ?_, ?_⟩
  · rw [cursor_started_dispatch, h1]
  · rw [cursor_completed_dispatch, h1]

/-- Witness for `cursor_tool_payload_args_or_result` at a concrete
tool_call object. -/
theorem cursor_tool_payload_args_or_result_witness :
    parseCursorValue (Json.obj [("type", Json.str "tool_call"),
        ("subtype", Json.str "started"), ("call_id", Json.str "c1"),
        ("tool_call", Json.obj [("readToolCall",
          Json.obj [("args", Json.str "A")])])]) =
      [Event.ToolStart
        { call_id := "c1", tool_name := "read",
          input := some (Json.str "A"), timestamp_ms := 0 }] := by
  have h := cursor_tool_payload_args_or_result
    [("readToolCall", Json.obj [("args", Json.str "A")])]
    ("readToolCall", Json.obj [("args", Json.str "A")]) "c1" (by rfl)
  exact h.2.1

-- ───────── Empty assistant messages (claim C2) ─────────

/-- C2 counterexample: an assistant `Message` with empty text is **not**
dropped by the normalizer — it is forwarded to the output stream. -/
theorem empty_assistant_message_counterexample :
    normalizeList ⟨none, none, none⟩ [Event.Message ⟨Role.Assistant, "", none, 7⟩] =
      [Event.Message ⟨Role.Assistant, "", none, 7⟩] ∧
    ([Event.Message ⟨Role.Assistant, "", none, 7⟩] : List Event) ≠ [] :=
  ⟨rfl, by simp⟩

/-- C2 (amended): an input `Message{role=assistant}` with empty text is not
matched by the user-message arm nor by the non-empty-assistant arm of
`enrich`; it falls into the catch-all arm and is forwarded unchanged (it
does not update `last_assistant_text`), preceded by the synthetic user
message (with timestamp 0, since `Message` is absent from the catch-all
timestamp extraction) when one is still pending. -/
theorem empty_assistant_message_forwarded (s : NormalizeState) (m : MessageEvent)
    (hrole : m.role = Role.Assistant) (htext : m.text = "") :
    s.enrich (Event.Message m) =
      if !s.seen_user_message && s.prompt.isSome then
        ({ s with seen_user_message := true },
          [s.makeUserMessage 0, Event.Message m])
      else (s, [Event.Message m]) := by
  simp [NormalizeState.enrich, NormalizeState.maybePrependUserMessage, hrole, htext]

/-- Witness for `empty_assistant_message_forwarded` at a concrete state and
message. -/
theorem empty_assistant_message_forwarded_witness :
    (initState ⟨none, none, some "P"⟩).enrich (Event.Message ⟨Role.Assistant, "", none, 7⟩) =
      ({ initState ⟨none, none, some "P"⟩ with seen_user_message := true },
        [(initState ⟨none, none, some "P"⟩).makeUserMessage 0,
          Event.Message ⟨Role.Assistant, "", none, 7⟩]) := by
  have h := empty_assistant_message_forwarded
    (initState ⟨none, none, some "P"⟩) ⟨Role.Assistant, "", none, 7⟩ rfl rfl
  simpa using h

-- ───────── Normalizer machinery shared by claims C1, C3, C6 ─────────

lemma runNorm_nil (s : NormalizeState) : runNorm s [] = [] := rfl

lemma runNorm_cons (s : NormalizeState) (e : Event) (rest : List Event) :
    runNorm s (e :: rest) = (s.enrich e).2 ++ runNorm (s.enrich e).1 rest := rfl

lemma runState_nil (s : NormalizeState) : runState s [] = s := rfl

lemma runState_cons (s : NormalizeState) (e : Event) (rest : List Event) :
    runState s (e :: rest) = runState (s.enrich e).1 rest := rfl

lemma runNorm_cons_pair (s : NormalizeState) (e : Event) (rest : List Event)
    (s' : NormalizeState) (out : List Event) (h : s.enrich e = (s', out)) :
    runNorm s (e :: rest) = out ++ runNorm s' rest := by
  rw [runNorm_cons, h]

lemma runState_cons_pair (s : NormalizeState) (e : Event) (rest : List Event)
    (s' : NormalizeState) (out : List Event) (h : s.enrich e = (s', out)) :
    runState s (e :: rest) = runState s' rest := by
  rw [runState_cons, h]

lemma runNorm_append (a : List Event) :
    ∀ (s : NormalizeState) (b : List Event),
      runNorm s (a ++ b) = runNorm s a ++ runNorm (runState s a) b := by
  induction a with
  | nil => intro s b; simp [runNorm_nil, runState_nil]
  | cons e rest ih =>
    intro s b
    simp only [List.cons_append, runNorm_cons, runState_cons, ih, List.append_assoc]

lemma runState_append (a : List Event) :
    ∀ (s : NormalizeState) (b : List Event),
      runState s (a ++ b) = runState (runState s a) b := by
  induction a with
  | nil => intro s b; simp [runState_nil]
  | cons e rest ih => intro s b; simp only [List.cons_append, runState_cons, ih]

/-- Closed form of `maybe_prepend_user_message`: the possibly-empty synthetic
prefix, followed by the event. -/
lemma maybePrepend_eq (s : NormalizeState) (ev : Event) (ts : Nat) :
    s.maybePrependUserMessage ev ts =
      (if !s.seen_user_message && s.prompt.isSome then
        { s with seen_user_message := true } else s,
       (if !s.seen_user_message && s.prompt.isSome then
        [s.makeUserMessage ts] else []) ++ [ev]) := by
  unfold NormalizeState.maybePrependUserMessage
  split <;> simp

/-- Closed form of the `SessionStart` arm of `enrich`. -/
lemma enrich_sessionStart_eq (s : NormalizeState) (e : SessionStartEvent) :
    s.enrich (Event.SessionStart e) =
      ({ s with session_id := e.session_id, start_timestamp_ms := e.timestamp_ms },
       [Event.SessionStart
         { e with
           model := if e.model = none then s.model else e.model
           cwd := if e.cwd = none then s.cwd else e.cwd }]) := by
  unfold NormalizeState.enrich
  rcases e with ⟨sid, ag, mo, cw, ts⟩
  cases mo <;> cases cw <;> simp

/-- Closed form of the user-message arm of `enrich`. -/
lemma enrich_message_user_eq (s : NormalizeState) (m : MessageEvent)
    (h : m.role = Role.User) :
    s.enrich (Event.Message m) = ({ s with seen_user_message := true }, [Event.Message m]) := by
  unfold NormalizeState.enrich
  simp [h]

/-- Closed form of the non-empty-assistant-message arm of `enrich`. -/
lemma enrich_message_assistant_eq (s : NormalizeState) (m : MessageEvent)
    (h : m.role = Role.Assistant) (ht : ¬ m.text = "") :
    s.enrich (Event.Message m) =
      ({ s with last_assistant_text := m.text }).maybePrependUserMessage
        (Event.Message m) m.timestamp_ms := by
  unfold NormalizeState.enrich
  simp [h, ht]

/-- Closed form of the fall-through `Message` arm of `enrich` (system role,
or assistant role with empty text): prepend with timestamp 0. -/
lemma enrich_message_other_eq (s : NormalizeState) (m : MessageEvent)
    (h : ¬ m.role = Role.User) (h2 : ¬ (m.role = Role.Assistant ∧ ¬ m.text = "")) :
    s.enrich (Event.Message m) = s.maybePrependUserMessage (Event.Message m) 0 := by
  unfold NormalizeState.enrich
  rcases m with ⟨role, text, usage, ts⟩
  cases role <;> simp_all

/-- Closed form of the `UsageDelta` arm of `enrich`. -/
lemma enrich_usageDelta_eq (s : NormalizeState) (e : UsageDeltaEvent) :
    s.enrich (Event.UsageDelta e) =
      (({ s with seen_usage_delta := true }).accumulate e.usage).maybePrependUserMessage
        (Event.UsageDelta e) e.timestamp_ms := rfl

/-- Closed form of the `Result` arm of `enrich`: the filled result event is
emitted last, preceded by the pending synthetic user message (if any) and
the synthetic `UsageDelta` (when none was seen and the filled result carries
usage). -/
lemma enrich_result_eq (s : NormalizeState) (r : ResultEvent) :
    s.enrich (Event.Result r) =
      (if !s.seen_user_message && s.prompt.isSome then
         { s with seen_user_message := true } else s,
       (if !s.seen_user_message && s.prompt.isSome then
          [s.makeUserMessage (fillResult s r).timestamp_ms] else []) ++
       (if !s.seen_usage_delta then
          (match (fillResult s r).usage with
           | some u => [Event.UsageDelta
              { usage := u, timestamp_ms := (fillResult s r).timestamp_ms }]
           | none => [])
        else []) ++
       [Event.Result (fillResult s r)]) := by
  unfold NormalizeState.enrich
  simp only [maybePrepend_eq]
  by_cases hc : (!s.seen_user_message && s.prompt.isSome) = true <;>
    by_cases hd : s.seen_usage_delta = true <;>
    cases hu : (fillResult s r).usage <;>
    simp [hc, hd, hu, List.getLast?]

/-- The remaining pass-through arms of `enrich` are bare prepends. -/
lemma enrich_textDelta_eq (s : NormalizeState) (e : TextDeltaEvent) :
    s.enrich (Event.TextDelta e) =
      s.maybePrependUserMessage (Event.TextDelta e) e.timestamp_ms := rfl

lemma enrich_toolStart_eq (s : NormalizeState) (e : ToolStartEvent) :
    s.enrich (Event.ToolStart e) =
      s.maybePrependUserMessage (Event.ToolStart e) e.timestamp_ms := rfl

lemma enrich_toolEnd_eq (s : NormalizeState) (e : ToolEndEvent) :
    s.enrich (Event.ToolEnd e) =
      s.maybePrependUserMessage (Event.ToolEnd e) e.timestamp_ms := rfl

lemma enrich_error_eq (s : NormalizeState) (e : ErrorEvent) :
    s.enrich (Event.Error e) =
      s.maybePrependUserMessage (Event.Error e) e.timestamp_ms := rfl

/-- Only the `UsageDelta` arm of `enrich` touches the usage bookkeeping
fields of the state. -/
lemma enrich_fst_usageFields (s : NormalizeState) (e : Event) :
    ((s.enrich e).1.accumulated_usage, (s.enrich e).1.has_usage) =
      (match e with
       | Event.UsageDelta d => (addUsage s.accumulated_usage d.usage, true)
       | _ => (s.accumulated_usage, s.has_usage)) := by
  cases e <;>
    simp only [NormalizeState.enrich, maybePrepend_eq, NormalizeState.accumulate] <;>
    (repeat' split) <;> rfl

/-- `usageDeltasOf` distributes over cons. -/
lemma usageDeltasOf_cons (e : Event) (rest : List Event) :
    usageDeltasOf (e :: rest) =
      (match e with
       | Event.UsageDelta d => d.usage :: usageDeltasOf rest
       | _ => usageDeltasOf rest) := by
  cases e <;> simp [usageDeltasOf, List.filterMap_cons]

/-- Accumulated usage after a run: the left fold of `accumulate_usage` over
the observed deltas; `has_usage` records whether any delta was observed. -/
lemma runState_usageFields (evs : List Event) :
    ∀ s : NormalizeState,
      (runState s evs).accumulated_usage =
        List.foldl addUsage s.accumulated_usage (usageDeltasOf evs) ∧
      (runState s evs).has_usage = (s.has_usage || !(usageDeltasOf evs).isEmpty) := by
  induction evs with
  | nil => intro s; simp [runState_nil, usageDeltasOf]
  | cons e rest ih =>
    intro s
    rw [runState_cons, usageDeltasOf_cons]
    have h := enrich_fst_usageFields s e
    obtain ⟨ih1, ih2⟩ := ih (s.enrich e).1
    cases e <;>
      simp only [Prod.mk.injEq] at h <;>
      simp [ih1, ih2, h.1, h.2, List.foldl_cons]

/-- Folding `optAdd` over a list of optional components: absent when the
start value and all components are absent, otherwise the sum of the present
components added onto the start value-or-zero. -/
lemma foldl_optAdd {M : Type} [AddCommMonoid M] (xs : List (Option M)) :
    ∀ a : Option M,
      List.foldl optAdd a xs =
        if (xs.filterMap id).isEmpty then a
        else some (a.getD 0 + (xs.filterMap id).sum) := by
  induction xs with
  | nil => intro a; simp
  | cons x rest ih =>
    intro a
    cases x with
    | none =>
      simp only [List.foldl_cons, optAdd]
      rw [ih]
      simp [List.filterMap_cons]
    | some v =>
      simp only [List.foldl_cons, optAdd]
      rw [ih]
      simp only [List.filterMap_cons]
      by_cases h : (rest.filterMap id).isEmpty = true
      · have hnil : rest.filterMap id = [] := by simpa using h
        simp [h, hnil]
      · simp [h, add_assoc]

/-- `accumulate_usage` acts componentwise as `optAdd`. -/
lemma addUsage_input (acc u : UsageData) :
    (addUsage acc u).input_tokens = optAdd acc.input_tokens u.input_tokens := by
  cases h : u.input_tokens <;> simp [addUsage, optAdd, h]

lemma addUsage_output (acc u : UsageData) :
    (addUsage acc u).output_tokens = optAdd acc.output_tokens u.output_tokens := by
  cases h : u.output_tokens <;> simp [addUsage, optAdd, h]

lemma addUsage_cacheRead (acc u : UsageData) :
    (addUsage acc u).cache_read_tokens = optAdd acc.cache_read_tokens u.cache_read_tokens := by
  cases h : u.cache_read_tokens <;> simp [addUsage, optAdd, h]

lemma addUsage_cacheCreation (acc u : UsageData) :
    (addUsage acc u).cache_creation_tokens =
      optAdd acc.cache_creation_tokens u.cache_creation_tokens := by
  cases h : u.cache_creation_tokens <;> simp [addUsage, optAdd, h]

lemma addUsage_cost (acc u : UsageData) :
    (addUsage acc u).cost_usd = optAdd acc.cost_usd u.cost_usd := by
  cases h : u.cost_usd <;> simp [addUsage, optAdd, h]

/-- Componentwise projection of the `accumulate_usage` fold. -/
lemma foldl_addUsage_proj (ds : List UsageData) :
    ∀ acc : UsageData,
      (List.foldl addUsage acc ds).input_tokens =
        List.foldl optAdd acc.input_tokens (ds.map (fun d => d.input_tokens)) ∧
      (List.foldl addUsage acc ds).output_tokens =
        List.foldl optAdd acc.output_tokens (ds.map (fun d => d.output_tokens)) ∧
      (List.foldl addUsage acc ds).cache_read_tokens =
        List.foldl optAdd acc.cache_read_tokens (ds.map (fun d => d.cache_read_tokens)) ∧
      (List.foldl addUsage acc ds).cache_creation_tokens =
        List.foldl optAdd acc.cache_creation_tokens (ds.map (fun d => d.cache_creation_tokens)) ∧
      (List.foldl addUsage acc ds).cost_usd =
        List.foldl optAdd acc.cost_usd (ds.map (fun d => d.cost_usd)) := by
  induction ds with
  | nil => intro acc; exact ⟨rfl, rfl, rfl, rfl, rfl⟩
  | cons d rest ih =>
    intro acc
    simp only [List.foldl_cons, List.map_cons]
    obtain ⟨i1, i2, i3, i4, i5⟩ := ih (addUsage acc d)
    exact ⟨by rw [i1, addUsage_input], by rw [i2, addUsage_output],
      by rw [i3, addUsage_cacheRead], by rw [i4, addUsage_cacheCreation],
      by rw [i5, addUsage_cost]⟩

/-- The `Default` of `UsageData` spelled out. -/
lemma default_usageData : (default : UsageData) = ⟨none, none, none, none, none⟩ := rfl

lemma sumUsage_eq_spec (ds : List UsageData) :
    List.foldl addUsage default ds = specSumUsage ds := by
  obtain ⟨h1, h2, h3, h4, h5⟩ := foldl_addUsage_proj ds default
  have e1 : (List.foldl addUsage default ds).input_tokens =
      optSum (ds.map (fun d => d.input_tokens)) := by
    rw [h1, foldl_optAdd, optSum]; simp [default_usageData]
  have e2 : (List.foldl addUsage default ds).output_tokens =
      optSum (ds.map (fun d => d.output_tokens)) := by
    rw [h2, foldl_optAdd, optSum]; simp [default_usageData]
  have e3 : (List.foldl addUsage default ds).cache_read_tokens =
      optSum (ds.map (fun d => d.cache_read_tokens)) := by
    rw [h3, foldl_optAdd, optSum]; simp [default_usageData]
  have e4 : (List.foldl addUsage default ds).cache_creation_tokens =
      optSum (ds.map (fun d => d.cache_creation_tokens)) := by
    rw [h4, foldl_optAdd, optSum]; simp [default_usageData]
  have e5 : (List.foldl addUsage default ds).cost_usd =
      optSum (ds.map (fun d => d.cost_usd)) := by
    rw [h5, foldl_optAdd, optSum]; simp [default_usageData]
  have hsplit : List.foldl addUsage default ds =
      ⟨(List.foldl addUsage default ds).input_tokens,
       (List.foldl addUsage default ds).output_tokens,
       (List.foldl addUsage default ds).cache_read_tokens,
       (List.foldl addUsage default ds).cache_creation_tokens,
       (List.foldl addUsage default ds).cost_usd⟩ := rfl
  rw [hsplit, e1, e2, e3, e4, e5]
  rfl

/-- Closed record form of `fillText`. -/
lemma fillText_eq (s : NormalizeState) (e : ResultEvent) :
    fillText s e =
      { e with text := if e.text = "" && !(s.last_assistant_text = "") then
          s.last_assistant_text else e.text } := by
  unfold fillText; split <;> rfl

/-- Closed record form of `fillSid`. -/
lemma fillSid_eq (s : NormalizeState) (e : ResultEvent) :
    fillSid s e =
      { e with session_id := if e.session_id = "" && !(s.session_id = "") then
          s.session_id else e.session_id } := by
  unfold fillSid; split <;> rfl

/-- Closed record form of `fillDuration`. -/
lemma fillDuration_eq (s : NormalizeState) (e : ResultEvent) :
    fillDuration s e =
      { e with duration_ms :=
          if (e.duration_ms = none && decide (0 < s.start_timestamp_ms)
              && decide (0 < e.timestamp_ms)) then
            some (e.timestamp_ms - s.start_timestamp_ms)
          else e.duration_ms } := by
  unfold fillDuration; split <;> rfl

/-- Closed record form of `fillUsage`. -/
lemma fillUsage_eq (s : NormalizeState) (e : ResultEvent) :
    fillUsage s e =
      { e with usage :=
          if (e.usage = none && s.has_usage) then some s.accumulated_usage
          else e.usage } := by
  unfold fillUsage; split <;> rfl

/-- Closed record form of `fillCost`. -/
lemma fillCost_eq (e : ResultEvent) :
    fillCost e =
      { e with total_cost_usd :=
          match e.total_cost_usd with
          | some c => some c
          | none => e.usage.bind (fun u => u.cost_usd) } := by
  rcases e with ⟨suc, tx, sid, dur, tot, us, ts⟩
  cases tot with
  | some c => cases us <;> simp [fillCost]
  | none =>
    cases us with
    | none => simp [fillCost]
    | some u => cases hc : u.cost_usd <;> simp [fillCost, hc]

/-- Field filling leaves the `usage` of a result with its own usage record
untouched, and otherwise fills it from the accumulator when a delta was
seen. -/
lemma fillResult_usage (s : NormalizeState) (r : ResultEvent) :
    (fillResult s r).usage =
      if r.usage = none ∧ s.has_usage = true then some s.accumulated_usage
      else r.usage := by
  unfold fillResult
  rw [fillCost_eq, fillUsage_eq, fillDuration_eq, fillSid_eq, fillText_eq]
  by_cases h1 : r.usage = none <;> by_cases h2 : s.has_usage = true <;>
    simp [h1, h2]

/-- Field filling never changes the timestamp of a result. -/
lemma fillResult_timestamp (s : NormalizeState) (r : ResultEvent) :
    (fillResult s r).timestamp_ms = r.timestamp_ms := by
  unfold fillResult
  rw [fillCost_eq, fillUsage_eq, fillDuration_eq, fillSid_eq, fillText_eq]

/-- The last element of a snoc. -/
lemma getLast?_snoc {α : Type} (l : List α) (c : α) : (l ++ [c]).getLast? = some c :=
  List.getLast?_concat l

-- ───────── Result usage vs accumulated deltas (claim C1) ─────────

/-- C1 counterexample: when the adapter's raw `Result` already carries its
own usage record, the normalizer preserves it instead of replacing it with
the sum of the observed deltas: with one observed delta of 100 input tokens
and a raw result usage of 999 input tokens, the emitted `Result` still
carries 999, which differs from the componentwise sum. -/
theorem result_usage_counterexample :
    normalizeList ⟨none, none, none⟩
      [Event.UsageDelta ⟨⟨some 100, none, none, none, none⟩, 10⟩,
       Event.Result ⟨true, "t", "sid", some 5, none,
         some ⟨some 999, none, none, none, none⟩, 20⟩] =
      [Event.UsageDelta ⟨⟨some 100, none, none, none, none⟩, 10⟩,
       Event.Result ⟨true, "t", "sid", some 5, none,
         some ⟨some 999, none, none, none, none⟩, 20⟩] ∧
    specSumUsage [⟨some 100, none, none, none, none⟩] =
      ⟨some 100, none, none, none, none⟩ ∧
    (⟨some 999, none, none, none, none⟩ : UsageData) ≠
      ⟨some 100, none, none, none, none⟩ := by
  refine ⟨rfl, rfl, by decide⟩

/-- C1 (amended): if at least one `UsageDelta` was observed before the
`Result` and the adapter's raw `Result` does **not** carry its own usage
record, the emitted `Result` carries a usage equal to the componentwise sum
of all observed deltas (each component absent when absent in every delta,
otherwise the sum of its present occurrences; `cost_usd` summed as
numbers). When the raw `Result` already carries a usage record, that record
is preserved unchanged. -/
theorem result_usage_sums_deltas (cfg : NormalizeConfig) (evs : List Event) (r : ResultEvent) :
    (r.usage = none → usageDeltasOf evs ≠ [] →
      ∃ r' : ResultEvent,
        (normalizeList cfg (evs ++ [Event.Result r])).getLast? = some (Event.Result r') ∧
        r'.usage = some (specSumUsage (usageDeltasOf evs))) ∧
    (∀ u : UsageData, r.usage = some u →
      ∃ r' : ResultEvent,
        (normalizeList cfg (evs ++ [Event.Result r])).getLast? = some (Event.Result r') ∧
        r'.usage = some u) := by
  have hlast : (normalizeList cfg (evs ++ [Event.Result r])).getLast? =
      some (Event.Result (fillResult (runState (initState cfg) evs) r)) := by
    rw [normalizeList, runNorm_append, runNorm_cons, runNorm_nil, enrich_result_eq]
    rw [List.append_nil]
    rw [show ∀ (x a b : List Event) (c : Event),
        x ++ (a ++ b ++ [c]) = (x ++ (a ++ b)) ++ [c] from
      fun x a b c => by simp [List.append_assoc]]
    exact getLast?_snoc _ _
  have hacc := (runState_usageFields evs (initState cfg)).1
  have hhas := (runState_usageFields evs (initState cfg)).2
  constructor
  · intro hnone hne
    refine ⟨fillResult (runState (initState cfg) evs) r, hlast, ?_⟩
    rw [fillResult_usage]
    have h1 : (runState (initState cfg) evs).has_usage = true := by
      rw [hhas]
      simp [initState, List.isEmpty_iff, hne]
    rw [if_pos ⟨hnone, h1⟩, hacc]
    rw [show (initState cfg).accumulated_usage = default from rfl, sumUsage_eq_spec]
  · intro u hu
    refine ⟨fillResult (runState (initState cfg) evs) r, hlast, ?_⟩
    rw [fillResult_usage, if_neg (by simp [hu]), hu]

/-- Witness for `result_usage_sums_deltas` at a concrete stream with one
delta and a result with no usage of its own. -/
theorem result_usage_sums_deltas_witness :
    ∃ r' : ResultEvent,
      (normalizeList ⟨none, none, none⟩
        [Event.UsageDelta ⟨⟨some 2, none, none, none, none⟩, 1⟩,
         Event.Result ⟨true, "t", "s", some 1, none, none, 5⟩]).getLast? =
        some (Event.Result r') ∧
      r'.usage = some (specSumUsage [⟨some 2, none, none, none, none⟩]) := by
  have h := (result_usage_sums_deltas ⟨none, none, none⟩
    [Event.UsageDelta ⟨⟨some 2, none, none, none, none⟩, 1⟩]
    ⟨true, "t", "s", some 1, none, none, 5⟩).1 rfl (by decide)
  simpa using h

-- ───────── Synthetic user message position (claim C3) ─────────

/-- `enrich` never changes the stored fallback prompt. -/
lemma enrich_fst_prompt (s : NormalizeState) (e : Event) :
    (s.enrich e).1.prompt = s.prompt := by
  cases e <;>
    simp only [NormalizeState.enrich, maybePrepend_eq, NormalizeState.accumulate] <;>
    (repeat' split) <;> rfl

/-- Once `seen_user_message` is set it stays set. -/
lemma enrich_fst_seenUser (s : NormalizeState) (e : Event)
    (h : s.seen_user_message = true) :
    (s.enrich e).1.seen_user_message = true := by
  cases e <;>
    simp only [NormalizeState.enrich, maybePrepend_eq, NormalizeState.accumulate] <;>
    (repeat' split) <;> simp [h]

/-- With `seen_user_message` set, enriching a non-user event emits no user
message. -/
lemma enrich_no_user_out (s : NormalizeState) (e : Event)
    (h : s.seen_user_message = true) (he : isUserMessage e = false) :
    ∀ x ∈ (s.enrich e).2, isUserMessage x = false := by
  cases e with
  | SessionStart a => simp [enrich_sessionStart_eq, isUserMessage]
  | Message m =>
    rcases m with ⟨role, text, usage, ts⟩
    cases role with
    | User => simp [isUserMessage] at he
    | Assistant =>
      by_cases ht : text = ""
      · rw [enrich_message_other_eq _ _ (by simp) (by simp [ht])]
        simp [maybePrepend_eq, h, isUserMessage]
      · rw [enrich_message_assistant_eq _ _ rfl (by simpa using ht)]
        simp [maybePrepend_eq, h, isUserMessage]
    | System =>
      rw [enrich_message_other_eq _ _ (by simp) (by simp)]
      simp [maybePrepend_eq, h, isUserMessage]
  | UsageDelta a =>
    simp [enrich_usageDelta_eq, maybePrepend_eq, NormalizeState.accumulate, h, isUserMessage]
  | Result r =>
    rw [enrich_result_eq]
    by_cases hd : s.seen_usage_delta = true <;>
      cases hu : (fillResult s r).usage <;>
      simp [h, hd, hu, isUserMessage]
  | TextDelta a => simp [enrich_textDelta_eq, maybePrepend_eq, h, isUserMessage]
  | ToolStart a => simp [enrich_toolStart_eq, maybePrepend_eq, h, isUserMessage]
  | ToolEnd a => simp [enrich_toolEnd_eq, maybePrepend_eq, h, isUserMessage]
  | Error a => simp [enrich_error_eq, maybePrepend_eq, h, isUserMessage]

/-- With `seen_user_message` set and no user message in the input, the
normalizer emits no user message at all. -/
lemma runNorm_no_user (evs : List Event) :
    ∀ s : NormalizeState, s.seen_user_message = true →
      (∀ e ∈ evs, isUserMessage e = false) →
      ∀ x ∈ runNorm s evs, isUserMessage x = false := by
  induction evs with
  | nil => intro s _ _ x hx; simp [runNorm_nil] at hx
  | cons e rest ih =>
    intro s hs hin x hx
    rw [runNorm_cons] at hx
    rcases List.mem_append.mp hx with hx1 | hx2
    · exact enrich_no_user_out s e hs (hin e (List.mem_cons_self e rest)) x hx1
    · exact ih (s.enrich e).1 (enrich_fst_seenUser s e hs)
        (fun y hy => hin y (List.mem_cons_of_mem e hy)) x hx2

/-- Enriching the first non-`SessionStart`, non-user event with a pending
prompt emits the synthetic user message first, with the timestamp the code
reads from that event, followed by a user-free tail; the state records the
user message as seen. -/
lemma enrich_trigger_shape (s : NormalizeState) (P : String) (e : Event)
    (hp : s.prompt = some P) (hs : s.seen_user_message = false)
    (hss : isSessionStart e = false) (hu : isUserMessage e = false) :
    ∃ tail, (s.enrich e).2 = Event.Message ⟨Role.User, P, none, triggerTs e⟩ :: tail ∧
      (∀ x ∈ tail, isUserMessage x = false) ∧
      (s.enrich e).1.seen_user_message = true := by
  cases e with
  | SessionStart a => simp [isSessionStart] at hss
  | Message m =>
    rcases m with ⟨role, text, usage, ts⟩
    cases role with
    | User => simp [isUserMessage] at hu
    | Assistant =>
      by_cases ht : text = ""
      · rw [enrich_message_other_eq _ _ (by simp) (by simp [ht])]
        refine ⟨[Event.Message ⟨Role.Assistant, text, usage, ts⟩], ?_, ?_, ?_⟩ <;>
          simp [maybePrepend_eq, hs, hp, NormalizeState.makeUserMessage, triggerTs,
            ht, isUserMessage]
      · rw [enrich_message_assistant_eq _ _ rfl (by simpa using ht)]
        refine ⟨[Event.Message ⟨Role.Assistant, text, usage, ts⟩], ?_, ?_, ?_⟩ <;>
          simp [maybePrepend_eq, hs, hp, NormalizeState.makeUserMessage, triggerTs,
            ht, isUserMessage]
    | System =>
      rw [enrich_message_other_eq _ _ (by simp) (by simp)]
      refine ⟨[Event.Message ⟨Role.System, text, usage, ts⟩], ?_, ?_, ?_⟩ <;>
        simp [maybePrepend_eq, hs, hp, NormalizeState.makeUserMessage, triggerTs,
          isUserMessage]
  | UsageDelta a =>
    refine ⟨[Event.UsageDelta a], ?_, ?_, ?_⟩ <;>
      simp [enrich_usageDelta_eq, maybePrepend_eq, NormalizeState.accumulate, hs, hp,
        NormalizeState.makeUserMessage, triggerTs, isUserMessage]
  | Result r =>
    rw [enrich_result_eq]
    refine ⟨(if !s.seen_usage_delta then
        (match (fillResult s r).usage with
         | some u => [Event.UsageDelta
            { usage := u, timestamp_ms := (fillResult s r).timestamp_ms }]
         | none => [])
      else []) ++ [Event.Result (fillResult s r)], ?_, ?_, ?_⟩
    · simp [hs, hp, NormalizeState.makeUserMessage, triggerTs, fillResult_timestamp]
    · by_cases hd : s.seen_usage_delta = true <;>
        cases hu2 : (fillResult s r).usage <;>
        simp [hd, hu2, isUserMessage]
    · simp [hs, hp]
  | TextDelta a =>
    refine ⟨[Event.TextDelta a], ?_, ?_, ?_⟩ <;>
      simp [enrich_textDelta_eq, maybePrepend_eq, hs, hp,
        NormalizeState.makeUserMessage, triggerTs, isUserMessage]
  | ToolStart a =>
    refine ⟨[Event.ToolStart a], ?_, ?_, ?_⟩ <;>
      simp [enrich_toolStart_eq, maybePrepend_eq, hs, hp,
        NormalizeState.makeUserMessage, triggerTs, isUserMessage]
  | ToolEnd a =>
    refine ⟨[Event.ToolEnd a], ?_, ?_, ?_⟩ <;>
      simp [enrich_toolEnd_eq, maybePrepend_eq, hs, hp,
        NormalizeState.makeUserMessage, triggerTs, isUserMessage]
  | Error a =>
    refine ⟨[Event.Error a], ?_, ?_, ?_⟩ <;>
      simp [enrich_error_eq, maybePrepend_eq, hs, hp,
        NormalizeState.makeUserMessage, triggerTs, isUserMessage]

/-- Generalized form of the synthetic user-message placement, over an
arbitrary state with a pending prompt. -/
lemma synthetic_user_general (evs : List Event) :
    ∀ (s : NormalizeState) (P : String), s.prompt = some P →
      s.seen_user_message = false →
      (∀ e ∈ evs, isUserMessage e = false) →
      ∀ trig, evs.find? (fun e => !isSessionStart e) = some trig →
      ∃ pre post,
        runNorm s evs = pre ++ Event.Message ⟨Role.User, P, none, triggerTs trig⟩ :: post ∧
        (∀ e ∈ pre, isSessionStart e = true) ∧
        (∀ e ∈ post, isUserMessage e = false) := by
  induction evs with
  | nil => intro s P _ _ _ trig htr; simp at htr
  | cons e rest ih =>
    intro s P hp hs hin trig htr
    by_cases hss : isSessionStart e = true
    · -- a leading SessionStart: it is not the trigger
      rw [List.find?_cons_of_neg _ (by simp [hss])] at htr
      have : ∃ a, e = Event.SessionStart a := by
        cases e <;> simp [isSessionStart] at hss ⊢
      obtain ⟨a, rfl⟩ := this
      rw [runNorm_cons_pair s _ rest _ _ (enrich_sessionStart_eq s a)]
      obtain ⟨pre, post, h1, h2, h3⟩ := ih
        { s with session_id := a.session_id, start_timestamp_ms := a.timestamp_ms } P
        (by simp [hp]) (by simp [hs])
        (fun y hy => hin y (List.mem_cons_of_mem _ hy)) trig htr
      refine ⟨Event.SessionStart
          { a with
            model := if a.model = none then s.model else a.model
            cwd := if a.cwd = none then s.cwd else a.cwd } :: pre, post, ?_, ?_, h3⟩
      · simp [h1]
      · intro x hx
        rcases List.mem_cons.mp hx with rfl | hx2
        · simp [isSessionStart]
        · exact h2 x hx2
    · -- e is the trigger
      have hssf : isSessionStart e = false := by simpa using hss
      have hue : isUserMessage e = false := hin e (List.mem_cons_self e rest)
      rw [List.find?_cons_of_pos _ (by simp [hssf])] at htr
      have htrig : trig = e := by simpa using htr.symm
      subst htrig
      obtain ⟨tail, ht1, ht2, ht3⟩ := enrich_trigger_shape s P trig hp hs hssf hue
      rw [runNorm_cons, ht1]
      refine ⟨[], tail ++ runNorm (s.enrich trig).1 rest, by simp, by simp, ?_⟩
      intro x hx
      rcases List.mem_append.mp hx with hx1 | hx2
      · exact ht2 x hx1
      · exact runNorm_no_user rest (s.enrich trig).1 ht3
          (fun y hy => hin y (List.mem_cons_of_mem _ hy)) x hx2

/-- C3 counterexample: with a fallback prompt and an input stream consisting
of a single `SessionStart` (and hence no user message from the adapter), the
normalizer emits **no** user message at all — there is no later event to
prepend it to — contradicting "exactly one". -/
theorem synthetic_user_counterexample :
    normalizeList ⟨none, none, some "P"⟩
      [Event.SessionStart ⟨"s", "a", none, none, 1000⟩] =
      [Event.SessionStart ⟨"s", "a", none, none, 1000⟩] ∧
    (∀ e ∈ normalizeList ⟨none, none, some "P"⟩
        [Event.SessionStart ⟨"s", "a", none, none, 1000⟩],
      isUserMessage e = false) :=
  ⟨rfl, by decide⟩

/-- C3 (amended): given a fallback prompt `P`, no user-role `Message` from
the adapter, and at least one event that is not a `SessionStart`, the
normalizer emits exactly one `Message{role=user, text=P}` — the output is a
prefix of `SessionStart` events, then the synthetic user message, then a
user-message-free tail, so it precedes the first assistant `Message`, the
first `UsageDelta` and the `Result`. Its `timestamp_ms` is the timestamp
the code reads from the first non-`SessionStart` event (`triggerTs`): that
event's own timestamp, except that a system-role or empty-text-assistant
`Message` trigger yields timestamp 0. -/
theorem synthetic_user_message_position (cfg : NormalizeConfig) (P : String) (evs : List Event)
    (hp : cfg.prompt = some P)
    (hnou : ∀ e ∈ evs, isUserMessage e = false)
    (htrig : ∃ e ∈ evs, isSessionStart e = false) :
    ∃ pre post trig,
      evs.find? (fun e => !isSessionStart e) = some trig ∧
      normalizeList cfg evs =
        pre ++ Event.Message ⟨Role.User, P, none, triggerTs trig⟩ :: post ∧
      (∀ e ∈ pre, isSessionStart e = true) ∧
      (∀ e ∈ post, isUserMessage e = false) := by
  obtain ⟨e0, he0, hss0⟩ := htrig
  have hfind : (evs.find? (fun e => !isSessionStart e)).isSome = true := by
    rw [List.find?_isSome]
    exact ⟨e0, he0, by simp [hss0]⟩
  obtain ⟨trig, htr⟩ := Option.isSome_iff_exists.mp hfind
  obtain ⟨pre, post, h1, h2, h3⟩ := synthetic_user_general evs (initState cfg) P
    (by simp [initState, hp]) rfl hnou trig htr
  exact ⟨pre, post, trig, htr, h1, h2, h3⟩

/-- Witness for `synthetic_user_message_position` at a concrete stream of a
`SessionStart` followed by a `Result`. -/
theorem synthetic_user_message_position_witness :
    ∃ pre post trig,
      [Event.SessionStart ⟨"s", "a", none, none, 3⟩,
        Event.Result ⟨true, "x", "s", some 1, none, none, 9⟩].find?
          (fun e => !isSessionStart e) = some trig ∧
      normalizeList ⟨none, none, some "P"⟩
        [Event.SessionStart ⟨"s", "a", none, none, 3⟩,
          Event.Result ⟨true, "x", "s", some 1, none, none, 9⟩] =
        pre ++ Event.Message ⟨Role.User, "P", none, triggerTs trig⟩ :: post ∧
      (∀ e ∈ pre, isSessionStart e = true) ∧
      (∀ e ∈ post, isUserMessage e = false) :=
  synthetic_user_message_position ⟨none, none, some "P"⟩ "P"
    [Event.SessionStart ⟨"s", "a", none, none, 3⟩,
      Event.Result ⟨true, "x", "s", some 1, none, none, 9⟩]
    rfl (by decide) (by decide)

-- ───────── Normalizer idempotence (claim C6) ─────────

lemma runNorm_singleton (t : NormalizeState) (x : Event) :
    runNorm t [x] = (t.enrich x).2 := by
  rw [runNorm_cons, runNorm_nil, List.append_nil]

lemma runState_singleton (t : NormalizeState) (x : Event) :
    runState t [x] = (t.enrich x).1 := rfl

/-- Projections of the result filling: `text`. -/
lemma fillResult_text (s : NormalizeState) (r : ResultEvent) :
    (fillResult s r).text =
      if (r.text = "" && !(s.last_assistant_text = "")) then s.last_assistant_text
      else r.text := by
  unfold fillResult
  rw [fillCost_eq, fillUsage_eq, fillDuration_eq, fillSid_eq, fillText_eq]

/-- Projections of the result filling: `session_id`. -/
lemma fillResult_sid (s : NormalizeState) (r : ResultEvent) :
    (fillResult s r).session_id =
      if (r.session_id = "" && !(s.session_id = "")) then s.session_id
      else r.session_id := by
  unfold fillResult
  rw [fillCost_eq, fillUsage_eq, fillDuration_eq, fillSid_eq, fillText_eq]

/-- Projections of the result filling: `duration_ms`. -/
lemma fillResult_duration (s : NormalizeState) (r : ResultEvent) :
    (fillResult s r).duration_ms =
      if (r.duration_ms = none && decide (0 < s.start_timestamp_ms)
          && decide (0 < r.timestamp_ms)) then
        some (r.timestamp_ms - s.start_timestamp_ms)
      else r.duration_ms := by
  unfold fillResult
  rw [fillCost_eq, fillUsage_eq, fillDuration_eq, fillSid_eq, fillText_eq]

/-- Projections of the result filling: `total_cost_usd`. -/
lemma fillResult_total (s : NormalizeState) (r : ResultEvent) :
    (fillResult s r).total_cost_usd =
      match r.total_cost_usd with
      | some c => some c
      | none => ((fillResult s r).usage).bind (fun u => u.cost_usd) := by
  unfold fillResult
  rw [fillCost_eq, fillUsage_eq, fillDuration_eq, fillSid_eq, fillText_eq]

/-- Enriching a user message synthesized by `make_user_message` sets the
flag and passes the message through. -/
lemma enrich_mkUser (t u : NormalizeState) (ts : Nat) :
    t.enrich (u.makeUserMessage ts) =
      ({ t with seen_user_message := true }, [u.makeUserMessage ts]) :=
  enrich_message_user_eq t _ rfl

/-- A blocked prepend is the identity emission. -/
lemma maybePrepend_blocked (s : NormalizeState) (ev : Event) (ts : Nat)
    (h : (!s.seen_user_message && s.prompt.isSome) = false) :
    s.maybePrependUserMessage ev ts = (s, [ev]) := by
  rw [maybePrepend_eq, h]
  simp

/-- Enriching an already-filled `Result` in a state that agrees with the
filling is a no-op: every fill condition fails, the prepend is blocked, and
no `UsageDelta` is synthesized. -/
lemma enrich_result_noop (t : NormalizeState) (R : ResultEvent)
    (h1 : R.text = "" → t.last_assistant_text = "")
    (h2 : R.session_id = "" → t.session_id = "")
    (h3 : R.duration_ms = none → t.start_timestamp_ms = 0 ∨ R.timestamp_ms = 0)
    (h4 : R.usage = none → t.has_usage = false)
    (h5 : R.total_cost_usd = none → R.usage.bind (fun u => u.cost_usd) = none)
    (h6 : (!t.seen_user_message && t.prompt.isSome) = false)
    (h7 : t.seen_usage_delta = true ∨ R.usage = none) :
    t.enrich (Event.Result R) = (t, [Event.Result R]) := by
  have hct : (R.text = "" && !(t.last_assistant_text = "")) = false := by
    by_cases hx : R.text = ""
    · simp [hx, h1 hx]
    · simp [hx]
  have ht : fillText t R = R := by rw [fillText_eq, hct]; rfl
  have hcs : (R.session_id = "" && !(t.session_id = "")) = false := by
    by_cases hx : R.session_id = ""
    · simp [hx, h2 hx]
    · simp [hx]
  have hsid : fillSid t R = R := by rw [fillSid_eq, hcs]; rfl
  have hcd : (R.duration_ms = none && decide (0 < t.start_timestamp_ms)
      && decide (0 < R.timestamp_ms)) = false := by
    by_cases hx : R.duration_ms = none
    · rcases h3 hx with h | h <;> simp [hx, h]
    · simp [hx]
  have hdur : fillDuration t R = R := by rw [fillDuration_eq, hcd]; rfl
  have hcu : (R.usage = none && t.has_usage) = false := by
    by_cases hx : R.usage = none
    · simp [hx, h4 hx]
    · simp [hx]
  have hus : fillUsage t R = R := by rw [fillUsage_eq, hcu]; rfl
  have hcost : fillCost R = R := by
    rw [fillCost_eq]
    cases hx : R.total_cost_usd with
    | some c => simp only [hx]; rw [← hx]
    | none => simp only [hx]; rw [h5 hx, ← hx]
  have hfill : fillResult t R = R := by
    unfold fillResult
    rw [ht, hsid, hdur, hus, hcost]
  rw [enrich_result_eq, hfill, h6]
  rcases h7 with h7 | h7 <;> simp [h7]

/-- A firing prepend emits the synthetic user message first. -/
lemma maybePrepend_fire (s : NormalizeState) (ev : Event) (ts : Nat)
    (h : (!s.seen_user_message && s.prompt.isSome) = true) :
    s.maybePrependUserMessage ev ts =
      ({ s with seen_user_message := true }, [s.makeUserMessage ts, ev]) := by
  unfold NormalizeState.maybePrependUserMessage
  simp [h]

/-- Generic two-pass stability of the prepend-style arms of `enrich`: if the
arm for `ev` is `maybe_prepend` over a state transformer `X` that does not
touch the user-message flag or the prompt, then re-normalizing the arm's
output reproduces it, and the two passes stay in correspondence. -/
lemma step_prepend_generic (s t : NormalizeState) (ev : Event) (ts : Nat)
    (X : NormalizeState → NormalizeState)
    (hc : InvCore s t)
    (harm : ∀ u : NormalizeState, u.enrich ev = (X u).maybePrependUserMessage ev ts)
    (hXseen : ∀ u, (X u).seen_user_message = u.seen_user_message)
    (hXprompt : ∀ u, (X u).prompt = u.prompt)
    (hXcore : ∀ u v, InvCore u v → InvCore (X u) (X v))
    (hXusage : ∀ u v, InvUsage u v → InvUsage (X u) (X v))
    (hXcomm : ∀ u, X { u with seen_user_message := true } =
      { X u with seen_user_message := true }) :
    runNorm t (s.enrich ev).2 = (s.enrich ev).2 ∧
    InvCore (s.enrich ev).1 (runState t (s.enrich ev).2) ∧
    (InvUsage s t → InvUsage (s.enrich ev).1 (runState t (s.enrich ev).2)) := by
  have hcond : (!(X t).seen_user_message && (X t).prompt.isSome) =
      (!(X s).seen_user_message && (X s).prompt.isSome) := by
    rw [hXseen, hXseen, hXprompt, hXprompt, hc.2.2.2.1, hc.2.2.2.2.2.2]
  by_cases hcd : (!(X s).seen_user_message && (X s).prompt.isSome) = true
  · rw [harm s, maybePrepend_fire _ _ _ hcd]
    have hb : (!(X { t with seen_user_message := true }).seen_user_message &&
        (X { t with seen_user_message := true }).prompt.isSome) = false := by
      rw [hXseen]
      simp
    refine ⟨?_, ?_, ?_⟩
    · rw [runNorm_cons_pair t _ _ _ _ (enrich_mkUser t (X s) ts),
        runNorm_singleton, harm { t with seen_user_message := true },
        maybePrepend_blocked _ _ _ hb]
      simp
    · rw [runState_cons_pair t _ _ _ _ (enrich_mkUser t (X s) ts),
        runState_singleton, harm { t with seen_user_message := true },
        maybePrepend_blocked _ _ _ hb, hXcomm]
      obtain ⟨x1, x2, x3, x4, x5, x6, x7⟩ := hXcore s t hc
      exact ⟨x1, x2, x3, rfl, x5, x6, x7⟩
    · intro hu
      rw [runState_cons_pair t _ _ _ _ (enrich_mkUser t (X s) ts),
        runState_singleton, harm { t with seen_user_message := true },
        maybePrepend_blocked _ _ _ hb, hXcomm]
      obtain ⟨y1, y2, y3⟩ := hXusage s t hu
      exact ⟨y1, y2, y3⟩
  · have hcdf : (!(X s).seen_user_message && (X s).prompt.isSome) = false := by
      simpa using hcd
    have hcdt : (!(X t).seen_user_message && (X t).prompt.isSome) = false := by
      rw [hcond]; exact hcdf
    rw [harm s, maybePrepend_blocked _ _ _ hcdf]
    refine ⟨?_, ?_, ?_⟩
    · rw [runNorm_singleton, harm t, maybePrepend_blocked _ _ _ hcdt]
    · rw [runState_singleton, harm t, maybePrepend_blocked _ _ _ hcdt]
      exact hXcore s t hc
    · intro hu
      rw [runState_singleton, harm t, maybePrepend_blocked _ _ _ hcdt]
      exact hXusage s t hu

/-- Two-pass stability of every non-`Result` arm of `enrich`: the second
pass reproduces the first pass's output for this event and preserves the
state correspondence. -/
lemma step_noResult (s t : NormalizeState) (e : Event)
    (he : isResult e = false) (hc : InvCore s t) :
    runNorm t (s.enrich e).2 = (s.enrich e).2 ∧
    InvCore (s.enrich e).1 (runState t (s.enrich e).2) ∧
    (InvUsage s t → InvUsage (s.enrich e).1 (runState t (s.enrich e).2)) := by
  obtain ⟨hc1, hc2, hc3, hc4, hc5, hc6, hc7⟩ := hc
  cases e with
  | Result r => simp [isResult] at he
  | SessionStart a =>
    rcases a with ⟨sid, ag, mo, cw, ats⟩
    simp only [enrich_sessionStart_eq]
    refine ⟨?_, ?_, ?_⟩
    · rw [runNorm_singleton, enrich_sessionStart_eq]
      cases mo <;> cases hsm : s.model <;> cases cw <;> cases hsc : s.cwd <;>
        simp [hc5, hc6, hsm, hsc]
    · rw [runState_singleton, enrich_sessionStart_eq]
      exact ⟨rfl, rfl, hc3, hc4, hc5, hc6, hc7⟩
    · intro hu
      rw [runState_singleton, enrich_sessionStart_eq]
      exact ⟨hu.1, hu.2.1, hu.2.2⟩
  | Message m =>
    by_cases hrole : m.role = Role.User
    · simp only [enrich_message_user_eq s m hrole]
      refine ⟨?_, ?_, ?_⟩
      · rw [runNorm_singleton, enrich_message_user_eq t m hrole]
      · rw [runState_singleton, enrich_message_user_eq t m hrole]
        exact ⟨hc1, hc2, hc3, rfl, hc5, hc6, hc7⟩
      · intro hu
        rw [runState_singleton, enrich_message_user_eq t m hrole]
        exact ⟨hu.1, hu.2.1, hu.2.2⟩
    · by_cases hassist : m.role = Role.Assistant ∧ ¬ m.text = ""
      · exact step_prepend_generic s t (Event.Message m) m.timestamp_ms
          (fun u => { u with last_assistant_text := m.text })
          ⟨hc1, hc2, hc3, hc4, hc5, hc6, hc7⟩
          (fun u => enrich_message_assistant_eq u m hassist.1 hassist.2)
          (fun u => rfl) (fun u => rfl)
          (fun u v h => ⟨h.1, h.2.1, rfl, h.2.2.2.1, h.2.2.2.2.1,
            h.2.2.2.2.2.1, h.2.2.2.2.2.2⟩)
          (fun u v h => ⟨h.1, h.2.1, h.2.2⟩)
          (fun u => rfl)
      · exact step_prepend_generic s t (Event.Message m) 0 id
          ⟨hc1, hc2, hc3, hc4, hc5, hc6, hc7⟩
          (fun u => enrich_message_other_eq u m hrole hassist)
          (fun u => rfl) (fun u => rfl) (fun u v h => h) (fun u v h => h)
          (fun u => rfl)
  | UsageDelta d =>
    exact step_prepend_generic s t (Event.UsageDelta d) d.timestamp_ms
      (fun u => ({ u with seen_usage_delta := true }).accumulate d.usage)
      ⟨hc1, hc2, hc3, hc4, hc5, hc6, hc7⟩
      (fun u => enrich_usageDelta_eq u d)
      (fun u => rfl) (fun u => rfl)
      (fun u v h => ⟨h.1, h.2.1, h.2.2.1, h.2.2.2.1, h.2.2.2.2.1,
        h.2.2.2.2.2.1, h.2.2.2.2.2.2⟩)
      (fun u v h => ⟨by simp [NormalizeState.accumulate, h.1], rfl, rfl⟩)
      (fun u => rfl)
  | TextDelta a =>
    exact step_prepend_generic s t (Event.TextDelta a) a.timestamp_ms id
      ⟨hc1, hc2, hc3, hc4, hc5, hc6, hc7⟩
      (fun u => enrich_textDelta_eq u a)
      (fun u => rfl) (fun u => rfl) (fun u v h => h) (fun u v h => h) (fun u => rfl)
  | ToolStart a =>
    exact step_prepend_generic s t (Event.ToolStart a) a.timestamp_ms id
      ⟨hc1, hc2, hc3, hc4, hc5, hc6, hc7⟩
      (fun u => enrich_toolStart_eq u a)
      (fun u => rfl) (fun u => rfl) (fun u v h => h) (fun u v h => h) (fun u => rfl)
  | ToolEnd a =>
    exact step_prepend_generic s t (Event.ToolEnd a) a.timestamp_ms id
      ⟨hc1, hc2, hc3, hc4, hc5, hc6, hc7⟩
      (fun u => enrich_toolEnd_eq u a)
      (fun u => rfl) (fun u => rfl) (fun u v h => h) (fun u v h => h) (fun u => rfl)
  | Error a =>
    exact step_prepend_generic s t (Event.Error a) a.timestamp_ms id
      ⟨hc1, hc2, hc3, hc4, hc5, hc6, hc7⟩
      (fun u => enrich_error_eq u a)
      (fun u => rfl) (fun u => rfl) (fun u v h => h) (fun u v h => h) (fun u => rfl)

/-- The fill no-op preconditions extracted from a filled result: left
residues of each fill condition. -/
lemma fillResult_text_prop (s : NormalizeState) (r : ResultEvent)
    (h : (fillResult s r).text = "") : s.last_assistant_text = "" := by
  rw [fillResult_text] at h
  split at h
  · exact h
  · rename_i hcnd
    simp [h] at hcnd
    exact hcnd

lemma fillResult_sid_prop (s : NormalizeState) (r : ResultEvent)
    (h : (fillResult s r).session_id = "") : s.session_id = "" := by
  rw [fillResult_sid] at h
  split at h
  · exact h
  · rename_i hcnd
    simp [h] at hcnd
    exact hcnd

lemma fillResult_duration_prop (s : NormalizeState) (r : ResultEvent)
    (h : (fillResult s r).duration_ms = none) :
    s.start_timestamp_ms = 0 ∨ (fillResult s r).timestamp_ms = 0 := by
  rw [fillResult_timestamp]
  rw [fillResult_duration] at h
  split at h
  · simp at h
  · rename_i hcnd
    rw [h] at hcnd
    rcases Nat.eq_zero_or_pos s.start_timestamp_ms with h1 | h1
    · exact Or.inl h1
    · right
      simp [h1] at hcnd
      omega

lemma fillResult_usage_prop (s : NormalizeState) (r : ResultEvent)
    (h : (fillResult s r).usage = none) : s.has_usage = false := by
  rw [fillResult_usage] at h
  split at h
  · simp at h
  · rename_i hcnd
    rw [h] at hcnd
    by_cases hh : s.has_usage = true
    · exact absurd ⟨rfl, hh⟩ hcnd
    · simpa using hh

lemma fillResult_total_prop (s : NormalizeState) (r : ResultEvent)
    (h : (fillResult s r).total_cost_usd = none) :
    ((fillResult s r).usage).bind (fun u => u.cost_usd) = none := by
  rw [fillResult_total] at h
  cases hrt : r.total_cost_usd with
  | some c => rw [hrt] at h; simp at h
  | none => rw [hrt] at h; exact h

/-- Pass-2 stability of the synthetic-delta-plus-result suffix emitted by
the `Result` arm: processing it from a state `t1` that agrees with the
pass-1 state `s` on the relevant fields (and in which the prepend is
blocked) reproduces it verbatim and only touches the usage bookkeeping. -/
lemma step_result_inner (s t1 : NormalizeState) (r : ResultEvent)
    (h_sid : t1.session_id = s.session_id)
    (h_start : t1.start_timestamp_ms = s.start_timestamp_ms)
    (h_last : t1.last_assistant_text = s.last_assistant_text)
    (h_has : t1.has_usage = s.has_usage)
    (h_sd : t1.seen_usage_delta = s.seen_usage_delta)
    (h_blocked : (!t1.seen_user_message && t1.prompt.isSome) = false) :
    runNorm t1 ((if !s.seen_usage_delta then
        (match (fillResult s r).usage with
         | some u => [Event.UsageDelta
            { usage := u, timestamp_ms := (fillResult s r).timestamp_ms }]
         | none => [])
      else []) ++ [Event.Result (fillResult s r)]) =
      (if !s.seen_usage_delta then
        (match (fillResult s r).usage with
         | some u => [Event.UsageDelta
            { usage := u, timestamp_ms := (fillResult s r).timestamp_ms }]
         | none => [])
      else []) ++ [Event.Result (fillResult s r)] ∧
    (runState t1 ((if !s.seen_usage_delta then
        (match (fillResult s r).usage with
         | some u => [Event.UsageDelta
            { usage := u, timestamp_ms := (fillResult s r).timestamp_ms }]
         | none => [])
      else []) ++ [Event.Result (fillResult s r)])).session_id = t1.session_id ∧
    (runState t1 ((if !s.seen_usage_delta then
        (match (fillResult s r).usage with
         | some u => [Event.UsageDelta
            { usage := u, timestamp_ms := (fillResult s r).timestamp_ms }]
         | none => [])
      else []) ++ [Event.Result (fillResult s r)])).start_timestamp_ms =
      t1.start_timestamp_ms ∧
    (runState t1 ((if !s.seen_usage_delta then
        (match (fillResult s r).usage with
         | some u => [Event.UsageDelta
            { usage := u, timestamp_ms := (fillResult s r).timestamp_ms }]
         | none => [])
      else []) ++ [Event.Result (fillResult s r)])).last_assistant_text =
      t1.last_assistant_text ∧
    (runState t1 ((if !s.seen_usage_delta then
        (match (fillResult s r).usage with
         | some u => [Event.UsageDelta
            { usage := u, timestamp_ms := (fillResult s r).timestamp_ms }]
         | none => [])
      else []) ++ [Event.Result (fillResult s r)])).seen_user_message =
      t1.seen_user_message ∧
    (runState t1 ((if !s.seen_usage_delta then
        (match (fillResult s r).usage with
         | some u => [Event.UsageDelta
            { usage := u, timestamp_ms := (fillResult s r).timestamp_ms }]
         | none => [])
      else []) ++ [Event.Result (fillResult s r)])).cwd = t1.cwd ∧
    (runState t1 ((if !s.seen_usage_delta then
        (match (fillResult s r).usage with
         | some u => [Event.UsageDelta
            { usage := u, timestamp_ms := (fillResult s r).timestamp_ms }]
         | none => [])
      else []) ++ [Event.Result (fillResult s r)])).model = t1.model ∧
    (runState t1 ((if !s.seen_usage_delta then
        (match (fillResult s r).usage with
         | some u => [Event.UsageDelta
            { usage := u, timestamp_ms := (fillResult s r).timestamp_ms }]
         | none => [])
      else []) ++ [Event.Result (fillResult s r)])).prompt = t1.prompt := by
  have p1 : (fillResult s r).text = "" → t1.last_assistant_text = "" := fun h =>
    h_last ▸ fillResult_text_prop s r h
  have p2 : (fillResult s r).session_id = "" → t1.session_id = "" := fun h =>
    h_sid ▸ fillResult_sid_prop s r h
  have p3 : (fillResult s r).duration_ms = none →
      t1.start_timestamp_ms = 0 ∨ (fillResult s r).timestamp_ms = 0 := fun h =>
    h_start ▸ fillResult_duration_prop s r h
  have p5 : (fillResult s r).total_cost_usd = none →
      ((fillResult s r).usage).bind (fun u => u.cost_usd) = none :=
    fillResult_total_prop s r
  cases hsd : s.seen_usage_delta with
  | true =>
    have hnoop : t1.enrich (Event.Result (fillResult s r)) =
        (t1, [Event.Result (fillResult s r)]) := by
      refine enrich_result_noop t1 _ p1 p2 p3 ?_ p5 h_blocked (Or.inl ?_)
      · intro h; rw [h_has]; exact fillResult_usage_prop s r h
      · rw [h_sd, hsd]
    simp [runNorm_singleton, runState_singleton, hnoop]
  | false =>
    cases hru : (fillResult s r).usage with
    | none =>
      have hnoop : t1.enrich (Event.Result (fillResult s r)) =
          (t1, [Event.Result (fillResult s r)]) := by
        refine enrich_result_noop t1 _ p1 p2 p3 ?_ p5 h_blocked (Or.inr hru)
        intro h; rw [h_has]; exact fillResult_usage_prop s r h
      simp [runNorm_singleton, runState_singleton, hnoop]
    | some u =>
      -- the synthetic delta precedes the result; processing it blocks
      -- re-synthesis and only changes the usage bookkeeping
      have hdelta : t1.enrich (Event.UsageDelta
          { usage := u, timestamp_ms := (fillResult s r).timestamp_ms }) =
          (({ t1 with seen_usage_delta := true }).accumulate u,
            [Event.UsageDelta
              { usage := u, timestamp_ms := (fillResult s r).timestamp_ms }]) := by
        rw [enrich_usageDelta_eq]
        exact maybePrepend_blocked _ _ _ (by simpa using h_blocked)
      have hnoop : (({ t1 with seen_usage_delta := true }).accumulate u).enrich
          (Event.Result (fillResult s r)) =
          (({ t1 with seen_usage_delta := true }).accumulate u,
            [Event.Result (fillResult s r)]) := by
        refine enrich_result_noop _ _ p1 p2 p3 ?_ p5 (by simpa using h_blocked)
          (Or.inl rfl)
        intro h; rw [h] at hru; cases hru
      have hchain : runNorm t1 (Event.UsageDelta
            { usage := u, timestamp_ms := (fillResult s r).timestamp_ms } ::
            [Event.Result (fillResult s r)]) =
          [Event.UsageDelta
            { usage := u, timestamp_ms := (fillResult s r).timestamp_ms },
           Event.Result (fillResult s r)] := by
        rw [runNorm_cons_pair _ _ _ _ _ hdelta, runNorm_singleton, hnoop]
        rfl
      have hstate : runState t1 (Event.UsageDelta
            { usage := u, timestamp_ms := (fillResult s r).timestamp_ms } ::
            [Event.Result (fillResult s r)]) =
          ({ t1 with seen_usage_delta := true }).accumulate u := by
        rw [runState_cons_pair _ _ _ _ _ hdelta, runState_singleton, hnoop]
      simp [hchain, hstate, NormalizeState.accumulate]

/-- Two-pass stability of the `Result` arm of `enrich`. -/
lemma step_result (s t : NormalizeState) (r : ResultEvent)
    (hc : InvCore s t) (hu : InvUsage s t) :
    runNorm t (s.enrich (Event.Result r)).2 = (s.enrich (Event.Result r)).2 ∧
    InvCore (s.enrich (Event.Result r)).1 (runState t (s.enrich (Event.Result r)).2) := by
  obtain ⟨hc1, hc2, hc3, hc4, hc5, hc6, hc7⟩ := hc
  obtain ⟨hu1, hu2, hu3⟩ := hu
  rw [enrich_result_eq]
  cases hcd : (!s.seen_user_message && s.prompt.isSome) with
  | false =>
    have hbl : (!t.seen_user_message && t.prompt.isSome) = false := by
      rw [hc4, hc7]; exact hcd
    obtain ⟨q1, q2, q3, q4, q5, q6, q7, q8⟩ :=
      step_result_inner s t r hc1 hc2 hc3 hu2 hu3 hbl
    constructor
    · simpa using q1
    · simp only [Bool.false_eq_true, if_false, List.nil_append]
      exact ⟨q2.trans hc1, q3.trans hc2, q4.trans hc3, q5.trans hc4,
        q6.trans hc5, q7.trans hc6, q8.trans hc7⟩
  | true =>
    obtain ⟨q1, q2, q3, q4, q5, q6, q7, q8⟩ :=
      step_result_inner s { t with seen_user_message := true } r hc1 hc2 hc3 hu2 hu3
        (by simp)
    constructor
    · simp only [if_pos rfl, if_true, List.append_assoc, List.singleton_append, List.cons_append, List.nil_append]
      rw [runNorm_cons_pair t _ _ _ _
        (enrich_mkUser t s (fillResult s r).timestamp_ms)]
      rw [q1]
      rfl
    · simp only [if_pos rfl, if_true, List.append_assoc, List.singleton_append, List.cons_append, List.nil_append]
      rw [runState_cons_pair t _ _ _ _
        (enrich_mkUser t s (fillResult s r).timestamp_ms)]
      exact ⟨q2.trans hc1, q3.trans hc2, q4.trans hc3, q5, q6.trans hc5,
        q7.trans hc6, q8.trans hc7⟩

/-- Two-pass stability over a `Result`-free stream segment. -/
lemma norm_stable_noResult (evs : List Event) :
    ∀ s t : NormalizeState, (∀ e ∈ evs, isResult e = false) → InvCore s t →
      runNorm t (runNorm s evs) = runNorm s evs := by
  induction evs with
  | nil => intro s t _ _; simp [runNorm_nil]
  | cons e rest ih =>
    intro s t hres hc
    rw [runNorm_cons, runNorm_append]
    obtain ⟨h1, h2, _⟩ := step_noResult s t e (hres e (List.mem_cons_self e rest)) hc
    rw [h1, ih (s.enrich e).1 (runState t (s.enrich e).2)
      (fun y hy => hres y (List.mem_cons_of_mem e hy)) h2]

/-- Two-pass stability over any stream with at most one `Result`. -/
lemma two_pass_eq (evs : List Event) :
    ∀ s t : NormalizeState, InvCore s t → InvUsage s t →
      evs.countP isResult ≤ 1 →
      runNorm t (runNorm s evs) = runNorm s evs := by
  induction evs with
  | nil => intro s t _ _ _; simp [runNorm_nil]
  | cons e rest ih =>
    intro s t hc hu hcount
    rw [runNorm_cons, runNorm_append]
    by_cases hres : isResult e = true
    · have : ∃ r, e = Event.Result r := by
        cases e <;> simp [isResult] at hres ⊢
      obtain ⟨r, rfl⟩ := this
      obtain ⟨h1, h2⟩ := step_result s t r hc hu
      have hrest : ∀ y ∈ rest, isResult y = false := by
        rw [List.countP_cons_of_pos _ _ (by simpa using hres)] at hcount
        have h0 : rest.countP isResult = 0 := by omega
        intro y hy
        have := List.countP_eq_zero.mp h0 y hy
        simpa using this
      rw [h1, norm_stable_noResult rest _ _ hrest h2]
    · have hres' : isResult e = false := by simpa using hres
      obtain ⟨h1, h2, h3⟩ := step_noResult s t e hres' hc
      rw [h1, ih _ _ h2 (h3 hu) ?_]
      rw [List.countP_cons_of_neg _ _ (by simpa using hres)] at hcount
      exact hcount

/-- C6 counterexample: the normalizer is **not** idempotent on every input
stream. With two `Result` events — the first carrying its own usage, the
second carrying none — the first pass synthesizes a `UsageDelta` before the
first `Result` but does not mark it as seen, so the second pass accumulates
it and fills the second `Result`'s usage, which the first pass had left
absent. -/
theorem normalizer_idempotent_counterexample :
    normalizeList ⟨none, none, none⟩ (normalizeList ⟨none, none, none⟩
      [Event.Result ⟨true, "", "", none, none,
        some ⟨some 1, none, none, none, none⟩, 0⟩,
       Event.Result ⟨true, "", "", none, none, none, 0⟩]) ≠
    normalizeList ⟨none, none, none⟩
      [Event.Result ⟨true, "", "", none, none,
        some ⟨some 1, none, none, none, none⟩, 0⟩,
       Event.Result ⟨true, "", "", none, none, none, 0⟩] := by
  intro h
  exact absurd (congrArg resultUsages h) (by decide)

/-- C6 (amended): the normalizer is idempotent on every stream containing
at most one `Result` event (which every well-formed adapter transcript
satisfies): feeding the output back through a fresh normalizer with the
same fallback cwd, model and prompt reproduces the event sequence with
every field of every event unchanged. -/
theorem normalizer_idempotent (cfg : NormalizeConfig) (evs : List Event)
    (h : evs.countP isResult ≤ 1) :
    normalizeList cfg (normalizeList cfg evs) = normalizeList cfg evs :=
  two_pass_eq evs (initState cfg) (initState cfg)
    ⟨rfl, rfl, rfl, rfl, rfl, rfl, rfl⟩ ⟨rfl, rfl, rfl⟩ h

/-- Witness for `normalizer_idempotent` at a concrete stream. -/
theorem normalizer_idempotent_witness :
    normalizeList ⟨none, none, some "P"⟩ (normalizeList ⟨none, none, some "P"⟩
      [Event.SessionStart ⟨"s", "a", none, none, 3⟩,
       Event.Result ⟨true, "x", "", none, none, none, 9⟩]) =
    normalizeList ⟨none, none, some "P"⟩
      [Event.SessionStart ⟨"s", "a", none, none, 3⟩,
       Event.Result ⟨true, "x", "", none, none, none, 9⟩] :=
  normalizer_idempotent ⟨none, none, some "P"⟩
    [Event.SessionStart ⟨"s", "a", none, none, 3⟩,
     Event.Result ⟨true, "x", "", none, none, none, 9⟩] (by decide)

end Harness
